import Mathlib

/-!
Verification of the OPTIC-SHIELD device agent's guaranteed-delivery message
broker (`src/device/src/storage/message_broker.py`) and the request-signing
logic of the delivery service (`src/device/src/services/delivery_service.py`).

The Python code is shallowly embedded:
* wall-clock timestamps (Python floats from `time.time()`) become `ℤ`:
  exact integer-valued instants (every such instant is an exactly
  representable Python float, so concrete runs below are genuine inputs,
  and all order/arithmetic relations the broker evaluates are preserved);
* the three SQLite tables (`messages`, `dead_letter_queue`, `ack_log`) become
  Lean lists kept in rowid (insertion) order; an SQL `UPDATE` is a `map`, a
  `DELETE` is a `filter`, an `INSERT` appends;
* sources of nondeterminism (`uuid.uuid4()`, `random.uniform`, the current
  time) become explicit parameters;
* a message payload (a Python dict) is represented by its canonical JSON
  serialization (`json.dumps(payload, sort_keys=True)`), a `String`;
  `metadata` dicts become association lists;
* the Python standard-library calls `hashlib.sha256` and `hmac.new` are
  embedded as an executable SHA-256 / HMAC-SHA-256 implementation
  (FIPS 180-4 / RFC 2104), validated below against published test vectors.
-/

set_option maxRecDepth 100000

/-! ## Byte- and word-level primitives (embedding of hashlib / hmac) -/

/-- Truncate to a 32-bit word, as Python's fixed-width hash arithmetic. -/
def w32 (x : Nat) : Nat := x % 4294967296

/-- Truncate to a byte. -/
def w8 (x : Nat) : Nat := x % 256

/-- 32-bit right rotation. -/
def rotr32 (x n : Nat) : Nat := w32 ((x >>> n) ||| (x <<< (32 - n)))

/-- UTF-8 encoding of one code point (Python `str.encode()`). -/
def utf8Bytes (c : Nat) : List Nat :=
  if c < 128 then [c]
  else if c < 2048 then [192 ||| (c >>> 6), 128 ||| (c &&& 63)]
  else if c < 65536 then
    [224 ||| (c >>> 12), 128 ||| ((c >>> 6) &&& 63), 128 ||| (c &&& 63)]
  else
    [240 ||| (c >>> 18), 128 ||| ((c >>> 12) &&& 63),
     128 ||| ((c >>> 6) &&& 63), 128 ||| (c &&& 63)]

/-- The UTF-8 bytes of a string. -/
def strBytes (s : String) : List Nat := (s.data.map (fun c => utf8Bytes c.toNat)).flatten

/-- SHA-256 round constants (FIPS 180-4 section 4.2.2, in decimal). -/
def sha256K : List Nat :=
  [   1116352408, 1899447441, 3049323471, 3921009573, 961987163, 1508970993,
   2453635748, 2870763221, 3624381080, 310598401, 607225278, 1426881987,
   1925078388, 2162078206, 2614888103, 3248222580, 3835390401, 4022224774,
   264347078, 604807628, 770255983, 1249150122, 1555081692, 1996064986,
   2554220882, 2821834349, 2952996808, 3210313671, 3336571891, 3584528711,
   113926993, 338241895, 666307205, 773529912, 1294757372, 1396182291,
   1695183700, 1986661051, 2177026350, 2456956037, 2730485921, 2820302411,
   3259730800, 3345764771, 3516065817, 3600352804, 4094571909, 275423344,
   430227734, 506948616, 659060556, 883997877, 958139571, 1322822218,
   1537002063, 1747873779, 1955562222, 2024104815, 2227730452, 2361852424,
   2428436474, 2756734187, 3204031479, 3329325298]

/-- SHA-256 initial hash value (FIPS 180-4 section 5.3.3, in decimal). -/
def sha256H0 : List Nat :=
  [   1779033703, 3144134277, 1013904242, 2773480762,
   1359893119, 2600822924, 528734635, 1541459225]

/-- SHA-256 padding: append 0x80, zeros to 56 mod 64, then the 64-bit
big-endian bit length. -/
def sha256Pad (msg : List Nat) : List Nat :=
  let len := msg.length
  let zeros := (119 - (len % 64)) % 64
  let bitlen := len * 8
  msg ++ [128] ++ List.replicate zeros 0 ++
    [w8 (bitlen >>> 56), w8 (bitlen >>> 48), w8 (bitlen >>> 40), w8 (bitlen >>> 32),
     w8 (bitlen >>> 24), w8 (bitlen >>> 16), w8 (bitlen >>> 8), w8 bitlen]

/-- Split a byte list into 64-byte blocks (fuel-structured for kernel
reduction; the fuel `l.length` always suffices). -/
def chunks64Fuel : Nat → List Nat → List (List Nat)
  | 0, _ => []
  | _, [] => []
  | fuel + 1, a :: rest => ((a :: rest).take 64) :: chunks64Fuel fuel ((a :: rest).drop 64)

def chunks64 (l : List Nat) : List (List Nat) := chunks64Fuel l.length l

/-- Big-endian 4-byte groups to 32-bit words. -/
def bytesToWordsFuel : Nat → List Nat → List Nat
  | 0, _ => []
  | fuel + 1, b0 :: b1 :: b2 :: b3 :: rest =>
    ((b0 <<< 24) ||| (b1 <<< 16) ||| (b2 <<< 8) ||| b3) :: bytesToWordsFuel fuel rest
  | _ + 1, _ => []

def bytesToWords (l : List Nat) : List Nat := bytesToWordsFuel l.length l

def sha256SmallSigma0 (x : Nat) : Nat := (rotr32 x 7) ^^^ (rotr32 x 18) ^^^ (x >>> 3)
def sha256SmallSigma1 (x : Nat) : Nat := (rotr32 x 17) ^^^ (rotr32 x 19) ^^^ (x >>> 10)
def sha256BigSigma0 (x : Nat) : Nat := (rotr32 x 2) ^^^ (rotr32 x 13) ^^^ (rotr32 x 22)
def sha256BigSigma1 (x : Nat) : Nat := (rotr32 x 6) ^^^ (rotr32 x 11) ^^^ (rotr32 x 25)

/-- Extend the 16 message-schedule words to 64. -/
def sha256Extend (ws : List Nat) : List Nat :=
  (List.range 48).foldl
    (fun ws i =>
      ws ++ [w32 (ws.getD i 0 + sha256SmallSigma0 (ws.getD (i + 1) 0) +
                  ws.getD (i + 9) 0 + sha256SmallSigma1 (ws.getD (i + 14) 0))])
    ws

/-- One SHA-256 compression step over an eight-word state. -/
def sha256Round (st : Nat × Nat × Nat × Nat × Nat × Nat × Nat × Nat) (k w : Nat) :
    Nat × Nat × Nat × Nat × Nat × Nat × Nat × Nat :=
  let (a, b, c, d, e, f, g, h) := st
  let ch := (e &&& f) ^^^ ((e ^^^ 4294967295) &&& g)
  let maj := (a &&& b) ^^^ (a &&& c) ^^^ (b &&& c)
  let t1 := w32 (h + sha256BigSigma1 e + ch + k + w)
  let t2 := w32 (sha256BigSigma0 a + maj)
  (w32 (t1 + t2), a, b, c, w32 (d + t1), e, f, g)

/-- Compress one 64-byte block into the running hash. -/
def sha256Compress (hs : List Nat) (block : List Nat) : List Nat :=
  let ws := sha256Extend (bytesToWords block)
  let init := (hs.getD 0 0, hs.getD 1 0, hs.getD 2 0, hs.getD 3 0,
               hs.getD 4 0, hs.getD 5 0, hs.getD 6 0, hs.getD 7 0)
  let fin := (sha256K.zip ws).foldl (fun st kw => sha256Round st kw.1 kw.2) init
  let (a, b, c, d, e, f, g, h) := fin
  List.zipWith (fun x y => w32 (x + y)) hs [a, b, c, d, e, f, g, h]

/-- SHA-256 digest of a byte list, as 32 bytes. -/
def sha256Bytes (msg : List Nat) : List Nat :=
  let hs := (chunks64 (sha256Pad msg)).foldl sha256Compress sha256H0
  (hs.map (fun w => [w8 (w >>> 24), w8 (w >>> 16), w8 (w >>> 8), w8 w])).flatten

/-- Lowercase hex of one byte. -/
def byteHex (b : Nat) : String := String.mk [Nat.digitChar (b / 16), Nat.digitChar (b % 16)]

/-- Lowercase hex of a byte list (Python's `hexdigest()`). -/
def bytesToHex (bs : List Nat) : String := String.join (bs.map byteHex)

/-- `hashlib.sha256(s.encode()).hexdigest()`. -/
def sha256Hex (s : String) : String := bytesToHex (sha256Bytes (strBytes s))

/-- HMAC-SHA-256 (RFC 2104) over byte lists. -/
def hmacSha256 (key msg : List Nat) : List Nat :=
  let key1 := if 64 < key.length then sha256Bytes key else key
  let key0 := key1 ++ List.replicate (64 - key1.length) 0
  let ipad := key0.map (fun b => b ^^^ 54)
  let opad := key0.map (fun b => b ^^^ 92)
  sha256Bytes (opad ++ sha256Bytes (ipad ++ msg))

/-- `hmac.new(key.encode(), msg.encode(), hashlib.sha256).hexdigest()`. -/
def hmacSha256Hex (key msg : String) : String :=
  bytesToHex (hmacSha256 (strBytes key) (strBytes msg))

/-! ## Data model (tables of `message_broker.py`) -/

/-- A row of the `messages` table (also the `Message` dataclass). -/
structure Row where
  id : String
  topic : String
  payload : String
  priority : Int
  status : String
  attempts : Nat
  max_attempts : Nat
  created_at : ℤ
  updated_at : ℤ
  scheduled_at : ℤ
  expires_at : Option ℤ
  last_error : Option String
  checksum : Option String
  ack_token : Option String
  metadata : List (String × String)
deriving DecidableEq

/-- A row of the `dead_letter_queue` table. -/
structure DLQRow where
  id : String
  original_id : String
  topic : String
  payload : String
  attempts : Nat
  last_error : Option String
  created_at : ℤ
  dead_lettered_at : ℤ
  metadata : List (String × String)
deriving DecidableEq

/-- A row of the `ack_log` table (the auto-increment id is the list position). -/
structure AckLogEntry where
  message_id : String
  ack_token : String
  status : String
  response : String
  timestamp : ℤ
deriving DecidableEq

/-- Construction-time configuration of `MessageBroker.__init__`. -/
structure BrokerConfig where
  max_queue_size : Nat := 50000
  max_in_flight : Nat := 100
  visibility_timeout : ℤ := 300
  enable_dedup : Bool := true
  dedup_window : ℤ := 300
deriving DecidableEq

def DEFAULT_MAX_ATTEMPTS : Nat := 10
def DEFAULT_BACKOFF_BASE : ℤ := 30
def DEFAULT_BACKOFF_MAX : ℤ := 3600
def DEFAULT_MESSAGE_TTL : ℤ := 86400 * 7

/-- The broker's mutable state: the three tables plus the in-memory dedup
structures and statistics counters. -/
structure BrokerState where
  messages : List Row
  dead_letter_queue : List DLQRow
  ack_log : List AckLogEntry
  checksum_times : List (String × ℤ)
  recent_checksums : List String
  stats_enqueued : Nat
  stats_acknowledged : Nat
  stats_failed : Nat
  stats_dead_lettered : Nat
  stats_duplicates_rejected : Nat
deriving DecidableEq

def BrokerState.empty : BrokerState :=
  { messages := [], dead_letter_queue := [], ack_log := [], checksum_times := [],
    recent_checksums := [], stats_enqueued := 0, stats_acknowledged := 0,
    stats_failed := 0, stats_dead_lettered := 0, stats_duplicates_rejected := 0 }

/-- Python dict as association list: `m[k] = v` keeps the position of an
existing key and appends a new one. -/
def assocSet {α : Type} (m : List (String × α)) (k : String) (v : α) : List (String × α) :=
  if m.any (fun p => p.1 == k) then m.map (fun p => if p.1 == k then (k, v) else p)
  else m ++ [(k, v)]

def assocGet {α : Type} (m : List (String × α)) (k : String) : Option α :=
  (m.find? (fun p => p.1 == k)).map (fun p => p.2)

/-- `del m[k]`. -/
def assocDel {α : Type} (m : List (String × α)) (k : String) : List (String × α) :=
  m.filter (fun p => !(p.1 == k))

/-- Python `x or default` on an optional number (`0` is falsy). -/
def pyOrQ (x : Option ℤ) (d : ℤ) : ℤ :=
  match x with
  | none => d
  | some t => if t = 0 then d else t

/-- Python `x or default` on an optional string (`""` is falsy). -/
def pyOrStr (x : Option String) (d : String) : String :=
  match x with
  | none => d
  | some k => if k = "" then d else k

/-- `deque(maxlen=n)` after an append: keep the last `n` elements. -/
def capDeque (l : List String) (n : Nat) : List String := l.drop (l.length - n)

/-! ## Circuit breaker (`CircuitBreaker`, message_broker.py lines 72-144) -/

/-- The circuit breaker's fields. `state_` is one of `"closed"`, `"open"`,
`"half_open"`. -/
structure CircuitBreaker where
  failure_threshold : Nat := 5
  recovery_timeout : ℤ := 60
  half_open_max_calls : Nat := 3
  state_ : String := "closed"
  failure_count : Nat := 0
  success_count : Nat := 0
  last_failure_time : Option ℤ := none
  half_open_calls : Nat := 0
deriving DecidableEq

def CircuitBreaker.init : CircuitBreaker := {}

/-- The `state` property: reading the state performs the timed
open → half-open transition. Returns the observed state and the new
breaker. (When `state_ = "open"`, `last_failure_time` is always set;
the `none` branch is unreachable.) -/
def CircuitBreaker.readState (cb : CircuitBreaker) (now : ℤ) : String × CircuitBreaker :=
  if cb.state_ = "open" then
    match cb.last_failure_time with
    | some t =>
      if cb.recovery_timeout ≤ now - t then
        ("half_open", { cb with state_ := "half_open", half_open_calls := 0 })
      else ("open", cb)
    | none => ("open", cb)
  else (cb.state_, cb)

/-- `is_available()`: the circuit allows requests unless the (time-adjusted)
state is open. -/
def CircuitBreaker.is_available (cb : CircuitBreaker) (now : ℤ) : Bool × CircuitBreaker :=
  let r := cb.readState now
  (decide (r.1 ≠ "open"), r.2)

/-- `record_success()`. -/
def CircuitBreaker.record_success (cb : CircuitBreaker) : CircuitBreaker :=
  if cb.state_ = "half_open" then
    let sc := cb.success_count + 1
    if cb.half_open_max_calls ≤ sc then
      { cb with state_ := "closed", failure_count := 0, success_count := 0 }
    else { cb with success_count := sc }
  else if cb.state_ = "closed" then
    { cb with failure_count := cb.failure_count - 1 }
  else cb

/-- `record_failure()`. -/
def CircuitBreaker.record_failure (cb : CircuitBreaker) (now : ℤ) : CircuitBreaker :=
  let cb1 := { cb with failure_count := cb.failure_count + 1, last_failure_time := some now }
  if cb1.state_ = "half_open" then { cb1 with state_ := "open" }
  else if cb1.failure_threshold ≤ cb1.failure_count then { cb1 with state_ := "open" }
  else cb1

/-! ## Message broker operations (`MessageBroker`) -/

namespace MessageBroker

/-- Payload checksum: first 16 hex chars of the SHA-256 of the canonical
JSON serialization (publish, lines 344-346). -/
def checksumOf (payload : String) : String := (sha256Hex payload).take 16

/-- `_is_duplicate` (lines 396-407): returns the verdict and the (possibly
cleaned) checksum-times dict. On a hit within the window the dict is kept;
an aged-out entry is deleted. -/
def is_duplicate (times : List (String × ℤ)) (checksum : String) (now window : ℤ) :
    Bool × List (String × ℤ) :=
  match assocGet times checksum with
  | none => (false, times)
  | some t => if now - t < window then (true, times) else (false, assocDel times checksum)

/-- `ORDER BY created_at ASC` as a relation (ties come in rowid order via the
stable sort below). -/
def createdLe (a b : Row) : Prop := a.created_at ≤ b.created_at

instance createdLe.dec : DecidableRel createdLe := fun a b => by
  unfold createdLe
  exact inferInstance

/-- `_evict_old_messages` (lines 409-420): delete the up-to-100 oldest
pending rows of priority ≤ 1. Ties in `created_at` come in rowid order
(stable sort). -/
def evict_old_messages (msgs : List Row) : List Row :=
  let victims :=
    (((msgs.filter (fun r => decide (r.status = "pending" ∧ r.priority ≤ 1))).insertionSort
        createdLe).take 100).map (fun r => r.id)
  msgs.filter (fun r => !(victims.contains r.id))

/-- The row inserted by `publish` (lines 365-382). `expires_at` is always
set; `last_error` and `ack_token` are not in the column list, so NULL. -/
def publishRow (topic payload : String) (priority : Int) (delay : ℤ) (ttl : Option ℤ)
    (metadata : List (String × String)) (message_id : String) (now : ℤ) : Row :=
  { id := message_id, topic := topic, payload := payload, priority := priority,
    status := "pending", attempts := 0, max_attempts := DEFAULT_MAX_ATTEMPTS,
    created_at := now, updated_at := now, scheduled_at := now + delay,
    expires_at := some (now + pyOrQ ttl DEFAULT_MESSAGE_TTL),
    last_error := none, checksum := some (checksumOf payload), ack_token := none,
    metadata := metadata }

/-- The dedup gate of `publish` (lines 348-353): consult `_is_duplicate`
only when dedup is enabled. -/
def dedupCheck (cfg : BrokerConfig) (times : List (String × ℤ)) (checksum : String)
    (now : ℤ) : Bool × List (String × ℤ) :=
  if cfg.enable_dedup then is_duplicate times checksum now cfg.dedup_window
  else (false, times)

/-- `publish` (lines 313-394). `fresh_uuid` stands for `str(uuid.uuid4())`.
Returns the message id (or `none` on dedup rejection) and the new state. -/
def publish (cfg : BrokerConfig) (s : BrokerState) (topic payload : String)
    (priority : Int) (delay : ℤ) (ttl : Option ℤ) (metadata : List (String × String))
    (idempotency_key : Option String) (now : ℤ) (fresh_uuid : String) :
    Option String × BrokerState :=
  let message_id := pyOrStr idempotency_key fresh_uuid
  let checksum := checksumOf payload
  let dup := dedupCheck cfg s.checksum_times checksum now
  if dup.1 then
    (none, { s with stats_duplicates_rejected := s.stats_duplicates_rejected + 1 })
  else
    let liveCount := s.messages.countP
      (fun r => decide (r.status = "pending" ∨ r.status = "in_flight"))
    let msgs0 := if cfg.max_queue_size ≤ liveCount then evict_old_messages s.messages
                 else s.messages
    (some message_id,
      { s with
        messages := msgs0.filter (fun r => decide (r.id ≠ message_id)) ++
          [publishRow topic payload priority delay ttl metadata message_id now],
        checksum_times := assocSet dup.2 checksum now,
        recent_checksums := capDeque (s.recent_checksums ++ [checksum]) 10000,
        stats_enqueued := s.stats_enqueued + 1 })

/-- `SELECT COUNT(*) FROM messages WHERE status = 'in_flight'`. -/
def inFlightCount (msgs : List Row) : Nat :=
  msgs.countP (fun r => decide (r.status = "in_flight"))

/-- The WHERE clause of `consume`'s SELECT (lines 452-460). -/
def visibleFor (topic : String) (now : ℤ) (r : Row) : Bool :=
  decide (r.topic = topic) && decide (r.status = "pending") &&
  decide (r.scheduled_at ≤ now) &&
  (match r.expires_at with
   | none => true
   | some e => decide (now < e))

/-- `ORDER BY priority DESC, scheduled_at ASC` as a total preorder. -/
def consumeLe (a b : Row) : Prop :=
  b.priority < a.priority ∨ (a.priority = b.priority ∧ a.scheduled_at ≤ b.scheduled_at)

instance consumeLe.dec : DecidableRel consumeLe := fun a b => by
  unfold consumeLe
  exact inferInstance

instance consumeLe.total : IsTotal Row consumeLe :=
  ⟨by
    intro a b
    unfold consumeLe
    rcases lt_trichotomy a.priority b.priority with h | h | h
    · exact Or.inr (Or.inl h)
    · rcases le_total a.scheduled_at b.scheduled_at with h' | h'
      · exact Or.inl (Or.inr ⟨h, h'⟩)
      · exact Or.inr (Or.inr ⟨h.symm, h'⟩)
    · exact Or.inl (Or.inl h)⟩

instance consumeLe.trans : IsTrans Row consumeLe :=
  ⟨by
    intro a b c hab hbc
    unfold consumeLe at hab hbc ⊢
    rcases hab with h | ⟨h, h'⟩ <;> rcases hbc with g | ⟨g, g'⟩
    · exact Or.inl (lt_trans g h)
    · exact Or.inl (g ▸ h)
    · exact Or.inl (h ▸ g)
    · exact Or.inr ⟨h.trans g, le_trans h' g'⟩⟩

/-- The rows selected by `consume`'s SELECT: visible rows, ordered by
priority DESC then scheduled_at ASC (ties in rowid order: the index scan
is stable), limited to `batch_size`. -/
def selectRows (msgs : List Row) (topic : String) (batch_size : Nat) (now : ℤ) : List Row :=
  ((msgs.filter (visibleFor topic now)).insertionSort consumeLe).take batch_size

/-- The per-row UPDATE of `consume` (lines 466-472). -/
def markRow (msgs : List Row) (id tok : String) (now : ℤ) : List Row :=
  msgs.map (fun r =>
    if r.id = id then { r with status := "in_flight", ack_token := some tok, updated_at := now }
    else r)

/-- `consume` (lines 422-497). `tokens i` stands for the `str(uuid.uuid4())`
ack token minted for the i-th selected row. Returns the delivered messages,
the new broker state and the new circuit breaker. -/
def consume (cfg : BrokerConfig) (s : BrokerState) (cb : CircuitBreaker)
    (topic : String) (batch_size : Nat) (now : ℤ) (tokens : Nat → String) :
    List Row × BrokerState × CircuitBreaker :=
  let avail := cb.is_available now
  if avail.1 = false then ([], s, avail.2)
  else if cfg.max_in_flight ≤ inFlightCount s.messages then ([], s, avail.2)
  else
    let selected := selectRows s.messages topic batch_size now
    let picks := selected.enum.map (fun p => (p.2.id, tokens p.1))
    let msgs := picks.foldl (fun m pick => markRow m pick.1 pick.2 now) s.messages
    let out := selected.enum.map (fun p =>
      { p.2 with status := "in_flight", ack_token := some (tokens p.1), updated_at := now })
    (out, { s with messages := msgs }, avail.2)

/-- `acknowledge` (lines 499-547). -/
def acknowledge (s : BrokerState) (cb : CircuitBreaker)
    (message_id ack_token response : String) (now : ℤ) :
    Bool × BrokerState × CircuitBreaker :=
  match s.messages.find? (fun r => decide (r.id = message_id ∧ r.status = "in_flight")) with
  | none => (false, s, cb)
  | some row =>
    if row.ack_token = some ack_token then
      (true,
       { s with
         messages := s.messages.filter (fun r => decide (r.id ≠ message_id)),
         ack_log := s.ack_log ++
           [{ message_id := message_id, ack_token := ack_token, status := "acknowledged",
              response := response, timestamp := now }],
         stats_acknowledged := s.stats_acknowledged + 1 },
       cb.record_success)
    else (false, s, cb)

/-- The dead-letter record built by `_move_to_dlq` (lines 619-641). -/
def dlqRecord (row : Row) (error : String) (now : ℤ) : DLQRow :=
  { id := "dlq_" ++ row.id ++ "_" ++ toString now,
    original_id := row.id, topic := row.topic, payload := row.payload,
    attempts := row.attempts + 1, last_error := some error,
    created_at := row.created_at, dead_lettered_at := now, metadata := row.metadata }

/-- `negative_acknowledge` (lines 549-617) together with `_move_to_dlq`.
`jitter` stands for `random.uniform(0, backoff * 0.1)`. -/
def negative_acknowledge (s : BrokerState) (cb : CircuitBreaker)
    (message_id ack_token error : String) (retry : Bool) (now jitter : ℤ) :
    Bool × BrokerState × CircuitBreaker :=
  match s.messages.find? (fun r => decide (r.id = message_id ∧ r.status = "in_flight")) with
  | none => (false, s, cb)
  | some row =>
    if row.ack_token = some ack_token then
      let attempts := row.attempts + 1
      if retry = false ∨ row.max_attempts ≤ attempts then
        (true,
         { s with
           messages := s.messages.filter (fun r => decide (r.id ≠ row.id)),
           dead_letter_queue := s.dead_letter_queue ++ [dlqRecord row error now],
           stats_dead_lettered := s.stats_dead_lettered + 1,
           stats_failed := s.stats_failed + 1 },
         cb.record_failure now)
      else
        let backoff := min (DEFAULT_BACKOFF_BASE * 2 ^ (attempts - 1)) DEFAULT_BACKOFF_MAX
        let next_attempt := now + backoff + jitter
        (true,
         { s with
           messages := s.messages.map (fun r =>
             if r.id = message_id then
               { r with
                 status := "pending", attempts := attempts,
                 scheduled_at := next_attempt, last_error := some error,
                 updated_at := now, ack_token := none }
             else r),
           stats_failed := s.stats_failed + 1 },
         cb.record_failure now)
    else (false, s, cb)

/-- `replay_dead_letter` (lines 682-714): republish the payload with a fresh
UUID id and merged metadata; delete the dead-letter row only on success. -/
def replay_dead_letter (cfg : BrokerConfig) (s : BrokerState) (dlq_id : String)
    (now : ℤ) (fresh_uuid : String) : Option String × BrokerState :=
  match s.dead_letter_queue.find? (fun d => decide (d.id = dlq_id)) with
  | none => (none, s)
  | some row =>
    let md := assocSet (assocSet row.metadata "replayed_from" dlq_id)
        "original_id" row.original_id
    let res := publish cfg s row.topic row.payload 1 0 none md none now fresh_uuid
    match res.1 with
    | some new_id =>
      (some new_id,
       { res.2 with dead_letter_queue :=
           res.2.dead_letter_queue.filter (fun d => decide (d.id ≠ dlq_id)) })
    | none => (none, res.2)

/-- `_recover_in_flight_messages` (lines 299-311): the crash-recovery
UPDATE run by `initialize`. -/
def recover_in_flight_messages (msgs : List Row) (now visibility_timeout : ℤ) : List Row :=
  msgs.map (fun r =>
    if r.status = "in_flight" ∧ r.updated_at < now - visibility_timeout
    then { r with status := "pending", updated_at := now }
    else r)

/-- `initialize` (lines 204-218): table creation is schema-only; the state
change is the crash-recovery pass. -/
def initBroker (cfg : BrokerConfig) (s : BrokerState) (now : ℤ) : BrokerState :=
  { s with messages := recover_in_flight_messages s.messages now cfg.visibility_timeout }

end MessageBroker

/-! ## Operation sequences (for the in-flight invariant) -/

/-- One client operation against the broker, with its external inputs
(current time, minted UUIDs, jitter) recorded in the operation. -/
inductive BrokerOp where
  | pub (topic payload : String) (priority : Int) (delay : ℤ) (ttl : Option ℤ)
        (metadata : List (String × String)) (key : Option String) (now : ℤ) (uuid : String)
  | con (topic : String) (batch : Nat) (now : ℤ) (tokens : Nat → String)
  | ack (mid tok resp : String) (now : ℤ)
  | nack (mid tok err : String) (retry : Bool) (now jitter : ℤ)

/-- The batch size an operation passes to `consume` (0 for the others). -/
def BrokerOp.batch : BrokerOp → Nat
  | .con _ b _ _ => b
  | _ => 0

/-- Apply one operation to a broker-plus-breaker state. -/
def stepOp (cfg : BrokerConfig) (sc : BrokerState × CircuitBreaker) (op : BrokerOp) :
    BrokerState × CircuitBreaker :=
  match op with
  | .pub t p pr d ttl md k now u => ((MessageBroker.publish cfg sc.1 t p pr d ttl md k now u).2, sc.2)
  | .con t b now toks =>
    let r := MessageBroker.consume cfg sc.1 sc.2 t b now toks
    (r.2.1, r.2.2)
  | .ack mid tok resp now =>
    let r := MessageBroker.acknowledge sc.1 sc.2 mid tok resp now
    (r.2.1, r.2.2)
  | .nack mid tok err retry now j =>
    let r := MessageBroker.negative_acknowledge sc.1 sc.2 mid tok err retry now j
    (r.2.1, r.2.2)

/-- Run a sequence of operations from a given start. -/
def runOpsFrom (cfg : BrokerConfig) (sc : BrokerState × CircuitBreaker)
    (ops : List BrokerOp) : BrokerState × CircuitBreaker :=
  ops.foldl (stepOp cfg) sc

/-- Run a sequence of operations in a fresh process. -/
def runOps (cfg : BrokerConfig) (ops : List BrokerOp) : BrokerState × CircuitBreaker :=
  runOpsFrom cfg (BrokerState.empty, CircuitBreaker.init) ops

/-! ## Transport signing (`delivery_service.py`) -/

namespace DeliveryService

/-- `_generate_signature` (delivery_service.py lines 484-495). -/
def generate_signature (device_secret : String) (payload : String) (timestamp : Int) : String :=
  if device_secret = "" then ""
  else hmacSha256Hex device_secret (toString timestamp ++ "." ++ payload)

/-- The headers attached by `_make_request` (lines 497-546); `body` is the
serialized request body `json.dumps(data)` and `event_id` is
`data.get("event_id", "")`. -/
def makeRequestHeaders (api_key device_id device_secret : String) (body : String)
    (timestamp : Int) (event_id : String) : List (String × String) :=
  [("Content-Type", "application/json"),
   ("X-API-Key", api_key),
   ("X-Device-ID", device_id),
   ("X-Timestamp", toString timestamp),
   ("X-Signature", generate_signature device_secret body timestamp),
   ("X-Message-ID", event_id)]

end DeliveryService

/-! ## Concrete fixtures and auxiliary definitions -/

/-- A stale in-flight fixture row for witnesses. -/
def rowStale : Row :=
  { id := "m", topic := "t", payload := "p", priority := 1, status := "in_flight",
    attempts := 2, max_attempts := 10, created_at := 0, updated_at := 0,
    scheduled_at := 0, expires_at := none, last_error := none, checksum := none,
    ack_token := some "tk", metadata := [] }

def stateStale : BrokerState := { BrokerState.empty with messages := [rowStale] }

/-- An in-flight fixture row with a matching token, and states for the two
branches of C1. -/
def rowFlight : Row :=
  { id := "m", topic := "t", payload := "p", priority := 1, status := "in_flight",
    attempts := 1, max_attempts := 10, created_at := 0, updated_at := 5,
    scheduled_at := 0, expires_at := none, last_error := none, checksum := none,
    ack_token := some "tok", metadata := [] }

def stateFlight : BrokerState := { BrokerState.empty with messages := [rowFlight] }

/-- Ops: publish with idempotency key `"k"`, consume it (now in flight). -/
def opsC6a : List BrokerOp :=
  [.pub "t" "p1" 1 0 none [] (some "k") 0 "u0",
   .con "t" 1 0 (fun i => "tok" ++ toString i)]

/-- Same, followed by a second publish with the same key but a new payload
while the row is still in flight. -/
def opsC6b : List BrokerOp :=
  opsC6a ++ [.pub "t" "p2" 1 0 none [] (some "k") 1 "u1"]

/-- A dead-letter fixture row. -/
def dlqRowFix : DLQRow :=
  { id := "d1", original_id := "m0", topic := "t", payload := "p", attempts := 3,
    last_error := some "err", created_at := 0, dead_lettered_at := 1, metadata := [] }

/-- State where replaying `dlqRowFix` hits the dedup window: the payload's
checksum was tracked at time 0 and the replay happens at time 5. -/
def stateDLQdup : BrokerState :=
  { BrokerState.empty with
    dead_letter_queue := [dlqRowFix],
    checksum_times := [(MessageBroker.checksumOf "p", 0)] }

/-- State where replaying `dlqRowFix` succeeds. -/
def stateDLQok : BrokerState :=
  { BrokerState.empty with dead_letter_queue := [dlqRowFix] }

/-- Modelled from the spec: the transition table of section 4.3, in which
`HalfOpen → Closed` requires 3 *consecutive* successes (the streak restarts
when a half-open episode starts or a failure intervenes). Used only to
compare the code's breaker against the claimed table. -/
structure SpecBreaker where
  state_ : String := "closed"
  failure_count : Nat := 0
  streak : Nat := 0
  last_failure_time : Option ℤ := none
deriving DecidableEq

def SpecBreaker.init : SpecBreaker := {}

/-- Spec table: the state read performs Open → HalfOpen on time. -/
def SpecBreaker.read (cb : SpecBreaker) (now : ℤ) : SpecBreaker :=
  if cb.state_ = "open" then
    match cb.last_failure_time with
    | some t =>
      if (60 : ℤ) ≤ now - t then { cb with state_ := "half_open", streak := 0 }
      else cb
    | none => cb
  else cb

/-- Spec table: success transitions. -/
def SpecBreaker.success (cb : SpecBreaker) : SpecBreaker :=
  if cb.state_ = "half_open" then
    if 3 ≤ cb.streak + 1 then { cb with state_ := "closed", failure_count := 0, streak := 0 }
    else { cb with streak := cb.streak + 1 }
  else if cb.state_ = "closed" then
    { cb with failure_count := cb.failure_count - 1 }
  else cb

/-- Spec table: failure transitions. -/
def SpecBreaker.failure (cb : SpecBreaker) (now : ℤ) : SpecBreaker :=
  let cb1 := { cb with
               failure_count := cb.failure_count + 1,
               last_failure_time := some now, streak := 0 }
  if cb1.state_ = "half_open" then { cb1 with state_ := "open" }
  else if 5 ≤ cb1.failure_count then { cb1 with state_ := "open" }
  else cb1

/-- An observable circuit-breaker event. -/
inductive CbEvent where
  | succ
  | fail (now : ℤ)
  | read (now : ℤ)

def cbStep (cb : CircuitBreaker) : CbEvent → CircuitBreaker
  | .succ => cb.record_success
  | .fail t => cb.record_failure t
  | .read t => (cb.readState t).2

def cbRun (evs : List CbEvent) : CircuitBreaker := evs.foldl cbStep CircuitBreaker.init

def specStep (cb : SpecBreaker) : CbEvent → SpecBreaker
  | .succ => cb.success
  | .fail t => cb.failure t
  | .read t => cb.read t

def specRun (evs : List CbEvent) : SpecBreaker := evs.foldl specStep SpecBreaker.init

/-- Five failures open the breaker; after the 60 s timeout a read half-opens
it; two successes then a failure re-open it; after another timeout a read
half-opens it again with zero successes in the new episode. -/
def cbEvsPre : List CbEvent :=
  [.fail 0, .fail 0, .fail 0, .fail 0, .fail 0, .read 60, .succ, .succ,
   .fail 61, .read 121]

/-- Pending fixture rows: high priority published after low priority. -/
def rowLo : Row :=
  { id := "l", topic := "t", payload := "pl", priority := 1, status := "pending",
    attempts := 0, max_attempts := 10, created_at := 0, updated_at := 0,
    scheduled_at := 0, expires_at := none, last_error := none, checksum := none,
    ack_token := none, metadata := [] }

def rowHi : Row :=
  { id := "h", topic := "t", payload := "ph", priority := 2, status := "pending",
    attempts := 0, max_attempts := 10, created_at := 0, updated_at := 0,
    scheduled_at := 0, expires_at := none, last_error := none, checksum := none,
    ack_token := none, metadata := [] }

def statePrio : BrokerState := { BrokerState.empty with messages := [rowLo, rowHi] }

/-- Two publishes in the same instant: uuid `"z"` first, uuid `"a"` second,
equal priority and visibility. -/
def opsC4 : List BrokerOp :=
  [.pub "t" "pz" 1 0 none [] none 0 "z", .pub "t" "pa" 1 0 none [] none 0 "a"]

/-- The C3 invariant: distinct row ids and the (amended) in-flight bound. -/
def InvC3 (cfg : BrokerConfig) (B : Nat) (s : BrokerState) : Prop :=
  (s.messages.map Row.id).Nodup ∧
  MessageBroker.inFlightCount s.messages ≤ cfg.max_in_flight - 1 + B

/-- Two publishes then one consume with `batch_size = 2` under
`max_in_flight = 1`. -/
def opsC3 : List BrokerOp :=
  [.pub "t" "p1" 1 0 none [] none 0 "a", .pub "t" "p2" 1 0 none [] none 0 "b",
   .con "t" 2 0 (fun i => "tok" ++ toString i)]

/-! ## General lemmas -/

-- Validation against the FIPS 180-4 example and RFC 4231 test case 2.
example : sha256Hex "abc" =
    "ba7816bf8f01cfea414140de5dae2223b00361a396177a9cb410ff61f20015ad" := by decide

example : hmacSha256Hex "Jefe" "what do ya want for nothing?" =
    "5bdcc146bf60754e6a042426089575c75a003f089d2739839dec58b964ec3843" := by decide


/-- On a list whose `f`-keys are distinct, `find?` returns the unique element
matching a key-determined predicate. -/
theorem find?_key_unique {α β : Type} (f : α → β) {p : α → Bool} {l : List α} {r : α}
    (hnd : (l.map f).Nodup) (hr : r ∈ l) (hp : p r = true)
    (hkey : ∀ x ∈ l, p x = true → f x = f r) : l.find? p = some r := by
  cases h : l.find? p with
  | none => exact absurd hp (List.find?_eq_none.mp h r hr)
  | some x =>
    have hx : p x = true := List.find?_some h
    have hxm : x ∈ l := List.mem_of_find?_eq_some h
    have hxr : x = r := List.inj_on_of_nodup_map hnd hxm hr (hkey x hxm hx)
    exact congrArg some hxr

/-! ## Claims -/

/-- C9: the `X-Signature` header attached by `_make_request` is the lowercase
hex HMAC-SHA-256, keyed by the device secret, of `"{timestamp}.{body}"`; with
an empty device secret the signature is the empty string. -/
theorem C9_request_signature
    (ak₁ di₁ sec₁ body₁ : String) (ts₁ : Int) (ev₁ : String) (h₁ : sec₁ ≠ "")
    (ak₂ di₂ body₂ : String) (ts₂ : Int) (ev₂ : String) :
    assocGet (DeliveryService.makeRequestHeaders ak₁ di₁ sec₁ body₁ ts₁ ev₁) "X-Signature"
      = some (hmacSha256Hex sec₁ (toString ts₁ ++ "." ++ body₁))
  ∧ assocGet (DeliveryService.makeRequestHeaders ak₂ di₂ "" body₂ ts₂ ev₂) "X-Signature"
      = some "" := by
  constructor
  · simp [DeliveryService.makeRequestHeaders, DeliveryService.generate_signature,
      assocGet, List.find?, if_neg h₁]
  · simp [DeliveryService.makeRequestHeaders, DeliveryService.generate_signature,
      assocGet, List.find?]

/-- Witness for C9 at a concrete secret, body and timestamp. -/
theorem C9_request_signature_witness :
    (("k" : String) ≠ "")
  ∧ (assocGet (DeliveryService.makeRequestHeaders "a" "d" "k" "b" 1 "e") "X-Signature"
      = some (hmacSha256Hex "k" (toString (1 : Int) ++ "." ++ "b"))
     ∧ assocGet (DeliveryService.makeRequestHeaders "a" "d" "" "b" 1 "e") "X-Signature"
      = some "") :=
  ⟨by decide, C9_request_signature "a" "d" "k" "b" 1 "e" (by decide) "a" "d" "b" 1 "e"⟩

/-- C7: on `initialize`, every in-flight row whose `updated_at` is older than
`now - visibility_timeout` is set to `pending` with `updated_at = now` and no
other column changed; every other row is entirely unchanged; the other tables
and counters are untouched. -/
theorem C7_crash_recovery (cfg : BrokerConfig) (s : BrokerState) (now : ℤ)
    (i : Nat) (r : Row) (hi : s.messages[i]? = some r) :
    (MessageBroker.initBroker cfg s now).messages.length = s.messages.length
  ∧ (MessageBroker.initBroker cfg s now).dead_letter_queue = s.dead_letter_queue
  ∧ (MessageBroker.initBroker cfg s now).ack_log = s.ack_log
  ∧ (MessageBroker.initBroker cfg s now).stats_enqueued = s.stats_enqueued
  ∧ (r.status = "in_flight" ∧ r.updated_at < now - cfg.visibility_timeout →
      (MessageBroker.initBroker cfg s now).messages[i]? =
        some { r with status := "pending", updated_at := now })
  ∧ (¬(r.status = "in_flight" ∧ r.updated_at < now - cfg.visibility_timeout) →
      (MessageBroker.initBroker cfg s now).messages[i]? = some r) := by
  refine ⟨?_, rfl, rfl, rfl, ?_, ?_⟩
  · simp [MessageBroker.initBroker, MessageBroker.recover_in_flight_messages]
  · intro hc
    simp [MessageBroker.initBroker, MessageBroker.recover_in_flight_messages,
      List.getElem?_map, hi, if_pos hc]
  · intro hc
    simp [MessageBroker.initBroker, MessageBroker.recover_in_flight_messages,
      List.getElem?_map, hi, if_neg hc]

/-- Witness for C7: with `visibility_timeout = 300` and `now = 301`, the stale
in-flight row (updated at 0) is reverted to pending with its attempts kept. -/
theorem C7_crash_recovery_witness :
    stateStale.messages[0]? = some rowStale
  ∧ (MessageBroker.initBroker {} stateStale 301).messages[0]? =
      some { rowStale with status := "pending", updated_at := 301 } :=
  ⟨by decide,
   (C7_crash_recovery {} stateStale 301 0 rowStale (by decide)).2.2.2.2.1 (by decide)⟩

/-- C1: `acknowledge` returns false and changes nothing when no in-flight row
with the id exists or the stored token mismatches; with an in-flight row and a
matching token it returns true, deletes the row, and appends exactly one
`acknowledged` ack-log entry for that id and token. -/
theorem C1_acknowledge
    (s₁ : BrokerState) (cb₁ : CircuitBreaker) (mid₁ tok₁ resp₁ : String) (now₁ : ℤ)
    (hA : ∀ x ∈ s₁.messages, x.id = mid₁ → x.status = "in_flight" → x.ack_token ≠ some tok₁)
    (s₂ : BrokerState) (cb₂ : CircuitBreaker) (mid₂ tok₂ resp₂ : String) (now₂ : ℤ)
    (r : Row) (hnd : (s₂.messages.map Row.id).Nodup) (hr : r ∈ s₂.messages)
    (hid : r.id = mid₂) (hst : r.status = "in_flight") (htok : r.ack_token = some tok₂) :
    MessageBroker.acknowledge s₁ cb₁ mid₁ tok₁ resp₁ now₁ = (false, s₁, cb₁)
  ∧ ((MessageBroker.acknowledge s₂ cb₂ mid₂ tok₂ resp₂ now₂).1 = true
     ∧ (MessageBroker.acknowledge s₂ cb₂ mid₂ tok₂ resp₂ now₂).2.1.messages =
         s₂.messages.filter (fun x => decide (x.id ≠ mid₂))
     ∧ r ∉ (MessageBroker.acknowledge s₂ cb₂ mid₂ tok₂ resp₂ now₂).2.1.messages
     ∧ (MessageBroker.acknowledge s₂ cb₂ mid₂ tok₂ resp₂ now₂).2.1.ack_log =
         s₂.ack_log ++ [{ message_id := mid₂, ack_token := tok₂, status := "acknowledged",
                          response := resp₂, timestamp := now₂ }]
     ∧ (MessageBroker.acknowledge s₂ cb₂ mid₂ tok₂ resp₂ now₂).2.1.dead_letter_queue =
         s₂.dead_letter_queue) := by
  constructor
  · cases h : s₁.messages.find? (fun x => decide (x.id = mid₁ ∧ x.status = "in_flight")) with
    | none =>
      unfold MessageBroker.acknowledge
      rw [h]
    | some row =>
      have hp := List.find?_some h
      simp only [decide_eq_true_eq] at hp
      have hm := List.mem_of_find?_eq_some h
      have hbad : row.ack_token ≠ some tok₁ := hA row hm hp.1 hp.2
      unfold MessageBroker.acknowledge
      rw [h]
      simp only [if_neg hbad]
  · have hfind : s₂.messages.find?
        (fun x => decide (x.id = mid₂ ∧ x.status = "in_flight")) = some r := by
      apply find?_key_unique Row.id hnd hr
      · exact decide_eq_true ⟨hid, hst⟩
      · intro x _ hx
        have hx' := of_decide_eq_true hx
        rw [hx'.1, hid]
    have hne : r ∉ s₂.messages.filter (fun x => decide (x.id ≠ mid₂)) := by
      intro hmem
      have h0 := List.of_mem_filter hmem
      simp only [decide_eq_true_eq] at h0
      exact h0 hid
    have hres : MessageBroker.acknowledge s₂ cb₂ mid₂ tok₂ resp₂ now₂ =
        (true,
         { s₂ with
           messages := s₂.messages.filter (fun x => decide (x.id ≠ mid₂)),
           ack_log := s₂.ack_log ++
             [{ message_id := mid₂, ack_token := tok₂, status := "acknowledged",
                response := resp₂, timestamp := now₂ }],
           stats_acknowledged := s₂.stats_acknowledged + 1 },
         cb₂.record_success) := by
      unfold MessageBroker.acknowledge
      rw [hfind]
      simp only [htok, if_pos]
    rw [hres]
    exact ⟨rfl, rfl, hne, rfl, rfl⟩

/-- Witness for C1: on `stateFlight`, an ack with the wrong token fails and
changes nothing, and an ack with the right token succeeds. -/
theorem C1_acknowledge_witness :
    (∀ x ∈ stateFlight.messages, x.id = "m" → x.status = "in_flight" →
        x.ack_token ≠ some "bad")
  ∧ (stateFlight.messages.map Row.id).Nodup
  ∧ rowFlight ∈ stateFlight.messages
  ∧ MessageBroker.acknowledge stateFlight CircuitBreaker.init "m" "bad" "" 9 =
      (false, stateFlight, CircuitBreaker.init)
  ∧ (MessageBroker.acknowledge stateFlight CircuitBreaker.init "m" "tok" "" 9).1 = true :=
  ⟨by decide, by decide, by decide,
   (C1_acknowledge stateFlight CircuitBreaker.init "m" "bad" "" 9 (by decide)
      stateFlight CircuitBreaker.init "m" "tok" "" 9 rowFlight (by decide) (by decide)
      (by decide) (by decide) (by decide)).1,
   (C1_acknowledge stateFlight CircuitBreaker.init "m" "bad" "" 9 (by decide)
      stateFlight CircuitBreaker.init "m" "tok" "" 9 rowFlight (by decide) (by decide)
      (by decide) (by decide) (by decide)).2.1⟩

/-- C2: for an in-flight row with a matching token, `negative_acknowledge`
returns true; with `retry = false` or `attempts + 1 ≥ max_attempts` the row is
deleted and one dead-letter record is appended carrying the original id,
topic, payload, attempt count `attempts + 1`, the error, and the original
`created_at`; otherwise the row becomes pending with `attempts + 1`,
`last_error = error`, `ack_token = null` and
`scheduled_at = now + backoff + jitter`, where
`backoff = min(30 · 2^attempts, 3600)` (the exponent uses the incremented
count minus one) and `0 ≤ jitter ≤ backoff / 10`. -/
theorem C2_negative_acknowledge
    (s₁ : BrokerState) (cb₁ : CircuitBreaker) (mid₁ tok₁ err₁ : String)
    (retry₁ : Bool) (now₁ jit₁ : ℤ) (r₁ : Row)
    (hnd₁ : (s₁.messages.map Row.id).Nodup) (hr₁ : r₁ ∈ s₁.messages)
    (hid₁ : r₁.id = mid₁) (hst₁ : r₁.status = "in_flight") (htok₁ : r₁.ack_token = some tok₁)
    (hcase₁ : retry₁ = false ∨ r₁.max_attempts ≤ r₁.attempts + 1)
    (s₂ : BrokerState) (cb₂ : CircuitBreaker) (mid₂ tok₂ err₂ : String)
    (now₂ jit₂ : ℤ) (r₂ : Row)
    (hnd₂ : (s₂.messages.map Row.id).Nodup) (hr₂ : r₂ ∈ s₂.messages)
    (hid₂ : r₂.id = mid₂) (hst₂ : r₂.status = "in_flight") (htok₂ : r₂.ack_token = some tok₂)
    (hlt₂ : r₂.attempts + 1 < r₂.max_attempts)
    (hjit₂ : 0 ≤ jit₂ ∧
      10 * jit₂ ≤ min (DEFAULT_BACKOFF_BASE * 2 ^ r₂.attempts) DEFAULT_BACKOFF_MAX) :
    ((MessageBroker.negative_acknowledge s₁ cb₁ mid₁ tok₁ err₁ retry₁ now₁ jit₁).1 = true
     ∧ (MessageBroker.negative_acknowledge s₁ cb₁ mid₁ tok₁ err₁ retry₁ now₁ jit₁).2.1.messages =
         s₁.messages.filter (fun x => decide (x.id ≠ r₁.id))
     ∧ r₁ ∉ (MessageBroker.negative_acknowledge s₁ cb₁ mid₁ tok₁ err₁ retry₁ now₁ jit₁).2.1.messages
     ∧ (MessageBroker.negative_acknowledge s₁ cb₁ mid₁ tok₁ err₁ retry₁ now₁ jit₁).2.1.dead_letter_queue =
         s₁.dead_letter_queue ++ [MessageBroker.dlqRecord r₁ err₁ now₁]
     ∧ (MessageBroker.dlqRecord r₁ err₁ now₁).original_id = r₁.id
     ∧ (MessageBroker.dlqRecord r₁ err₁ now₁).topic = r₁.topic
     ∧ (MessageBroker.dlqRecord r₁ err₁ now₁).payload = r₁.payload
     ∧ (MessageBroker.dlqRecord r₁ err₁ now₁).attempts = r₁.attempts + 1
     ∧ (MessageBroker.dlqRecord r₁ err₁ now₁).last_error = some err₁
     ∧ (MessageBroker.dlqRecord r₁ err₁ now₁).created_at = r₁.created_at)
  ∧ ((MessageBroker.negative_acknowledge s₂ cb₂ mid₂ tok₂ err₂ true now₂ jit₂).1 = true
     ∧ { r₂ with
         status := "pending", attempts := r₂.attempts + 1,
         scheduled_at := now₂ + min (DEFAULT_BACKOFF_BASE * 2 ^ r₂.attempts) DEFAULT_BACKOFF_MAX + jit₂,
         last_error := some err₂, updated_at := now₂, ack_token := none } ∈
         (MessageBroker.negative_acknowledge s₂ cb₂ mid₂ tok₂ err₂ true now₂ jit₂).2.1.messages
     ∧ (∀ x ∈ s₂.messages, x.id ≠ mid₂ →
         x ∈ (MessageBroker.negative_acknowledge s₂ cb₂ mid₂ tok₂ err₂ true now₂ jit₂).2.1.messages)
     ∧ now₂ + min (DEFAULT_BACKOFF_BASE * 2 ^ r₂.attempts) DEFAULT_BACKOFF_MAX ≤
         now₂ + min (DEFAULT_BACKOFF_BASE * 2 ^ r₂.attempts) DEFAULT_BACKOFF_MAX + jit₂
     ∧ 10 * ((now₂ + min (DEFAULT_BACKOFF_BASE * 2 ^ r₂.attempts) DEFAULT_BACKOFF_MAX + jit₂) -
         (now₂ + min (DEFAULT_BACKOFF_BASE * 2 ^ r₂.attempts) DEFAULT_BACKOFF_MAX)) ≤
         min (DEFAULT_BACKOFF_BASE * 2 ^ r₂.attempts) DEFAULT_BACKOFF_MAX
     ∧ (MessageBroker.negative_acknowledge s₂ cb₂ mid₂ tok₂ err₂ true now₂ jit₂).2.1.dead_letter_queue =
         s₂.dead_letter_queue) := by
  constructor
  · have hfind : s₁.messages.find?
        (fun x => decide (x.id = mid₁ ∧ x.status = "in_flight")) = some r₁ := by
      apply find?_key_unique Row.id hnd₁ hr₁
      · exact decide_eq_true ⟨hid₁, hst₁⟩
      · intro x _ hx
        have hx' := of_decide_eq_true hx
        rw [hx'.1, hid₁]
    have hres : MessageBroker.negative_acknowledge s₁ cb₁ mid₁ tok₁ err₁ retry₁ now₁ jit₁ =
        (true,
         { s₁ with
           messages := s₁.messages.filter (fun x => decide (x.id ≠ r₁.id)),
           dead_letter_queue := s₁.dead_letter_queue ++ [MessageBroker.dlqRecord r₁ err₁ now₁],
           stats_dead_lettered := s₁.stats_dead_lettered + 1,
           stats_failed := s₁.stats_failed + 1 },
         cb₁.record_failure now₁) := by
      unfold MessageBroker.negative_acknowledge
      rw [hfind]
      simp only [htok₁, if_pos, hcase₁]
    have hne : r₁ ∉ s₁.messages.filter (fun x => decide (x.id ≠ r₁.id)) := by
      intro hmem
      have h0 := List.of_mem_filter hmem
      simp only [decide_eq_true_eq] at h0
      exact h0 rfl
    rw [hres]
    exact ⟨rfl, rfl, hne, rfl, rfl, rfl, rfl, rfl, rfl, rfl⟩
  · have hfind : s₂.messages.find?
        (fun x => decide (x.id = mid₂ ∧ x.status = "in_flight")) = some r₂ := by
      apply find?_key_unique Row.id hnd₂ hr₂
      · exact decide_eq_true ⟨hid₂, hst₂⟩
      · intro x _ hx
        have hx' := of_decide_eq_true hx
        rw [hx'.1, hid₂]
    have hnotdlq : ¬(true = false ∨ r₂.max_attempts ≤ r₂.attempts + 1) := by
      rintro (h | h)
      · exact Bool.noConfusion h
      · omega
    have hres : MessageBroker.negative_acknowledge s₂ cb₂ mid₂ tok₂ err₂ true now₂ jit₂ =
        (true,
         { s₂ with
           messages := s₂.messages.map (fun x =>
             if x.id = mid₂ then
               { x with
                 status := "pending", attempts := r₂.attempts + 1,
                 scheduled_at := now₂ +
                   min (DEFAULT_BACKOFF_BASE * 2 ^ (r₂.attempts + 1 - 1)) DEFAULT_BACKOFF_MAX + jit₂,
                 last_error := some err₂, updated_at := now₂, ack_token := none }
             else x),
           stats_failed := s₂.stats_failed + 1 },
         cb₂.record_failure now₂) := by
      unfold MessageBroker.negative_acknowledge
      rw [hfind]
      simp only [htok₂, if_pos]
      rw [if_neg hnotdlq]
    have hexp : r₂.attempts + 1 - 1 = r₂.attempts := by omega
    rw [hres, hexp]
    refine ⟨rfl, ?_, ?_, ?_, ?_, rfl⟩
    · refine List.mem_map.mpr ⟨r₂, hr₂, ?_⟩
      simp only [if_pos hid₂]
    · intro x hx hxid
      refine List.mem_map.mpr ⟨x, hx, ?_⟩
      simp only [if_neg hxid]
    · omega
    · omega

/-- Witness for C2 on `stateFlight`: a nack with `retry = false` dead-letters
the row; a nack with `retry = true` and attempts below the cap succeeds. -/
theorem C2_negative_acknowledge_witness :
    (stateFlight.messages.map Row.id).Nodup
  ∧ rowFlight ∈ stateFlight.messages
  ∧ rowFlight.status = "in_flight"
  ∧ rowFlight.ack_token = some "tok"
  ∧ ((false : Bool) = false ∨ rowFlight.max_attempts ≤ rowFlight.attempts + 1)
  ∧ rowFlight.attempts + 1 < rowFlight.max_attempts
  ∧ (0 ≤ (3 : ℤ) ∧
      10 * (3 : ℤ) ≤ min (DEFAULT_BACKOFF_BASE * 2 ^ rowFlight.attempts) DEFAULT_BACKOFF_MAX)
  ∧ (MessageBroker.negative_acknowledge stateFlight CircuitBreaker.init
      "m" "tok" "boom" false 9 0).1 = true
  ∧ (MessageBroker.negative_acknowledge stateFlight CircuitBreaker.init
      "m" "tok" "fail" true 9 3).1 = true :=
  ⟨by decide, by decide, by decide, by decide, Or.inl rfl, by decide, by decide,
   (C2_negative_acknowledge stateFlight CircuitBreaker.init "m" "tok" "boom" false 9 0 rowFlight
     (by decide) (by decide) (by decide) (by decide) (by decide) (Or.inl rfl)
     stateFlight CircuitBreaker.init "m" "tok" "fail" 9 3 rowFlight
     (by decide) (by decide) (by decide) (by decide) (by decide) (by decide)
     (by decide)).1.1,
   (C2_negative_acknowledge stateFlight CircuitBreaker.init "m" "tok" "boom" false 9 0 rowFlight
     (by decide) (by decide) (by decide) (by decide) (by decide) (Or.inl rfl)
     stateFlight CircuitBreaker.init "m" "tok" "fail" 9 3 rowFlight
     (by decide) (by decide) (by decide) (by decide) (by decide) (by decide)
     (by decide)).2.1⟩

/-- Setting a key in the dict makes lookup return the new value. -/
theorem assocGet_assocSet {α : Type} (m : List (String × α)) (k : String) (v : α) :
    assocGet (assocSet m k v) k = some v := by
  unfold assocSet
  split
  · rename_i hany
    induction m with
    | nil => simp at hany
    | cons a t ih =>
      by_cases hak : a.1 == k
      · simp [assocGet, List.find?, hak]
      · have hany' : t.any (fun p => p.1 == k) = true := by
          simp only [List.any_cons, hak, Bool.false_or] at hany
          exact hany
        have := ih hany'
        simpa [assocGet, List.find?, hak] using this
  · rename_i hany
    have hnone : m.find? (fun p => p.1 == k) = none := by
      rw [List.find?_eq_none]
      intro x hx h'
      exact hany (List.any_eq_true.mpr ⟨x, hx, h'⟩)
    simp [assocGet, List.find?_append, hnone]

/-- A publish that returns an id records the payload checksum at the publish
time in the dedup dict. -/
theorem publish_tracks_checksum (cfg : BrokerConfig) (s : BrokerState)
    (tp p : String) (pr : Int) (d : ℤ) (ttl : Option ℤ) (md : List (String × String))
    (key : Option String) (now : ℤ) (u : String)
    (h : (MessageBroker.publish cfg s tp p pr d ttl md key now u).1.isSome) :
    assocGet (MessageBroker.publish cfg s tp p pr d ttl md key now u).2.checksum_times
      (MessageBroker.checksumOf p) = some now := by
  simp only [MessageBroker.publish] at h ⊢
  rcases hdp : MessageBroker.dedupCheck cfg s.checksum_times (MessageBroker.checksumOf p) now
    with ⟨b, ts⟩
  rw [hdp] at h
  cases b
  · rw [if_neg (by simp)]
    exact assocGet_assocSet _ _ _
  · rw [if_pos rfl] at h
    exact Bool.noConfusion h

/-- C5: with dedup enabled, a second publish of a payload with the same
canonical JSON form within `dedup_window` of a successful first publish
returns nil, bumps `duplicates_rejected` by exactly one and inserts no row;
once the tracked timestamp has aged out of the window the second publish is
not rejected. -/
theorem C5_dedup_window (cfg : BrokerConfig) (s₀ : BrokerState)
    (tp₁ p : String) (pr₁ : Int) (d₁ : ℤ) (ttl₁ : Option ℤ) (md₁ : List (String × String))
    (k₁ : Option String) (t₁ : ℤ) (u₁ : String)
    (tp₂ : String) (pr₂ : Int) (d₂ : ℤ) (ttl₂ : Option ℤ) (md₂ : List (String × String))
    (k₂ : Option String) (t₂ : ℤ) (u₂ : String)
    (hd : cfg.enable_dedup = true)
    (h1 : (MessageBroker.publish cfg s₀ tp₁ p pr₁ d₁ ttl₁ md₁ k₁ t₁ u₁).1.isSome) :
    (t₂ - t₁ < cfg.dedup_window →
      MessageBroker.publish cfg (MessageBroker.publish cfg s₀ tp₁ p pr₁ d₁ ttl₁ md₁ k₁ t₁ u₁).2
          tp₂ p pr₂ d₂ ttl₂ md₂ k₂ t₂ u₂ =
        (none,
         { (MessageBroker.publish cfg s₀ tp₁ p pr₁ d₁ ttl₁ md₁ k₁ t₁ u₁).2 with
           stats_duplicates_rejected :=
             (MessageBroker.publish cfg s₀ tp₁ p pr₁ d₁ ttl₁ md₁ k₁ t₁ u₁).2.stats_duplicates_rejected + 1 })
      ∧ (MessageBroker.publish cfg (MessageBroker.publish cfg s₀ tp₁ p pr₁ d₁ ttl₁ md₁ k₁ t₁ u₁).2
          tp₂ p pr₂ d₂ ttl₂ md₂ k₂ t₂ u₂).2.messages =
          (MessageBroker.publish cfg s₀ tp₁ p pr₁ d₁ ttl₁ md₁ k₁ t₁ u₁).2.messages)
  ∧ (cfg.dedup_window ≤ t₂ - t₁ →
      (MessageBroker.publish cfg (MessageBroker.publish cfg s₀ tp₁ p pr₁ d₁ ttl₁ md₁ k₁ t₁ u₁).2
          tp₂ p pr₂ d₂ ttl₂ md₂ k₂ t₂ u₂).1 = some (pyOrStr k₂ u₂)
      ∧ (MessageBroker.publish cfg (MessageBroker.publish cfg s₀ tp₁ p pr₁ d₁ ttl₁ md₁ k₁ t₁ u₁).2
          tp₂ p pr₂ d₂ ttl₂ md₂ k₂ t₂ u₂).2.stats_duplicates_rejected =
          (MessageBroker.publish cfg s₀ tp₁ p pr₁ d₁ ttl₁ md₁ k₁ t₁ u₁).2.stats_duplicates_rejected) := by
  have hg := publish_tracks_checksum cfg s₀ tp₁ p pr₁ d₁ ttl₁ md₁ k₁ t₁ u₁ h1
  generalize hS : (MessageBroker.publish cfg s₀ tp₁ p pr₁ d₁ ttl₁ md₁ k₁ t₁ u₁).2 = S at hg ⊢
  constructor
  · intro hw
    have hdup : MessageBroker.dedupCheck cfg S.checksum_times
        (MessageBroker.checksumOf p) t₂ = (true, S.checksum_times) := by
      simp only [MessageBroker.dedupCheck, hd, eq_self_iff_true, if_true,
        MessageBroker.is_duplicate, hg, if_pos hw]
    constructor
    · simp only [MessageBroker.publish, hdup, if_true]
    · simp only [MessageBroker.publish, hdup, if_true]
  · intro hw
    have hnlt : ¬(t₂ - t₁ < cfg.dedup_window) := not_lt.mpr hw
    have hdup : MessageBroker.dedupCheck cfg S.checksum_times
        (MessageBroker.checksumOf p) t₂ =
        (false, assocDel S.checksum_times (MessageBroker.checksumOf p)) := by
      simp only [MessageBroker.dedupCheck, hd, eq_self_iff_true, if_true,
        MessageBroker.is_duplicate, hg, if_neg hnlt]
    constructor
    · simp only [MessageBroker.publish, hdup, Bool.false_eq_true, if_false]
    · simp only [MessageBroker.publish, hdup, Bool.false_eq_true, if_false]

/-- Witness for C5: publishing payload `"p"` at time 0 and again at time 5
(within the default 300 s window) rejects the second publish, leaving only
the stats counter changed. -/
theorem C5_dedup_window_witness :
    ({} : BrokerConfig).enable_dedup = true
  ∧ (MessageBroker.publish {} BrokerState.empty "t" "p" 1 0 none [] none 0 "u1").1.isSome
  ∧ MessageBroker.publish {}
      (MessageBroker.publish {} BrokerState.empty "t" "p" 1 0 none [] none 0 "u1").2
      "t" "p" 2 0 none [] none 5 "u2" =
      (none,
       { (MessageBroker.publish {} BrokerState.empty "t" "p" 1 0 none [] none 0 "u1").2 with
         stats_duplicates_rejected :=
           (MessageBroker.publish {} BrokerState.empty "t" "p" 1 0 none [] none 0
             "u1").2.stats_duplicates_rejected + 1 }) :=
  ⟨rfl, by decide,
   ((C5_dedup_window {} BrokerState.empty "t" "p" 1 0 none [] none 0 "u1"
       "t" 2 0 none [] none 5 "u2" rfl (by decide)).1 (by decide)).1⟩

/-- When the dedup gate passes, `publish` performs the full insert path. -/
theorem publish_not_dup_eq (cfg : BrokerConfig) (s : BrokerState)
    (tp p : String) (pr : Int) (d : ℤ) (ttl : Option ℤ) (md : List (String × String))
    (key : Option String) (now : ℤ) (u : String) (ts : List (String × ℤ))
    (hdp : MessageBroker.dedupCheck cfg s.checksum_times (MessageBroker.checksumOf p) now =
      (false, ts)) :
    MessageBroker.publish cfg s tp p pr d ttl md key now u =
      (some (pyOrStr key u),
       { s with
         messages :=
           (if cfg.max_queue_size ≤
                s.messages.countP (fun r => decide (r.status = "pending" ∨ r.status = "in_flight"))
            then MessageBroker.evict_old_messages s.messages else s.messages).filter
             (fun r => decide (r.id ≠ pyOrStr key u)) ++
           [MessageBroker.publishRow tp p pr d ttl md (pyOrStr key u) now],
         checksum_times := assocSet ts (MessageBroker.checksumOf p) now,
         recent_checksums := capDeque (s.recent_checksums ++ [MessageBroker.checksumOf p]) 10000,
         stats_enqueued := s.stats_enqueued + 1 }) := by
  simp only [MessageBroker.publish, hdp, Bool.false_eq_true, if_false]

/-- When `publish` returns an id, the dedup gate passed. -/
theorem publish_isSome_dedup (cfg : BrokerConfig) (s : BrokerState)
    (tp p : String) (pr : Int) (d : ℤ) (ttl : Option ℤ) (md : List (String × String))
    (key : Option String) (now : ℤ) (u : String)
    (h : (MessageBroker.publish cfg s tp p pr d ttl md key now u).1.isSome) :
    (MessageBroker.dedupCheck cfg s.checksum_times (MessageBroker.checksumOf p) now).1 = false := by
  simp only [MessageBroker.publish] at h
  rcases hdp : MessageBroker.dedupCheck cfg s.checksum_times (MessageBroker.checksumOf p) now
    with ⟨b, ts⟩
  rw [hdp] at h
  cases b
  · rfl
  · rw [if_pos rfl] at h
    exact Bool.noConfusion h

/-- C6 (amended): `publish` uses a non-empty `idempotency_key` as the message
id, a fresh UUID otherwise; a repeated publish with the same key that passes
the dedup gate (and does not trigger queue-size eviction) overwrites the prior
row regardless of its status — including an in-flight row, which is reset to
`pending` with `attempts = 0` and `ack_token = null` — rather than only when
the prior row has not yet been consumed. -/
theorem C6_idempotency_amended
    (cfg₁ : BrokerConfig) (s₁ : BrokerState) (tp₁ p₁ : String) (pr₁ : Int) (d₁ : ℤ)
    (ttl₁ : Option ℤ) (md₁ : List (String × String)) (k₁ : String) (t₁ : ℤ) (u₁ : String)
    (hk₁ : k₁ ≠ "")
    (h1 : (MessageBroker.publish cfg₁ s₁ tp₁ p₁ pr₁ d₁ ttl₁ md₁ (some k₁) t₁ u₁).1.isSome)
    (cfg₂ : BrokerConfig) (s₂ : BrokerState) (tp₂ p₂ : String) (pr₂ : Int) (d₂ : ℤ)
    (ttl₂ : Option ℤ) (md₂ : List (String × String)) (t₂ : ℤ) (u₂ : String)
    (h2 : (MessageBroker.publish cfg₂ s₂ tp₂ p₂ pr₂ d₂ ttl₂ md₂ none t₂ u₂).1.isSome)
    (cfg₃ : BrokerConfig) (s₃ : BrokerState) (tp₃ p₃ : String) (pr₃ : Int) (d₃ : ℤ)
    (ttl₃ : Option ℤ) (md₃ : List (String × String)) (k₃ : String) (t₃ : ℤ) (u₃ : String)
    (r₃ : Row) (hk₃ : k₃ ≠ "")
    (h3 : (MessageBroker.publish cfg₃ s₃ tp₃ p₃ pr₃ d₃ ttl₃ md₃ (some k₃) t₃ u₃).1.isSome)
    (hq₃ : s₃.messages.countP (fun r => decide (r.status = "pending" ∨ r.status = "in_flight")) <
      cfg₃.max_queue_size)
    (_hr₃ : r₃ ∈ s₃.messages) (hid₃ : r₃.id = k₃) (hst₃ : r₃.status = "in_flight") :
    (MessageBroker.publish cfg₁ s₁ tp₁ p₁ pr₁ d₁ ttl₁ md₁ (some k₁) t₁ u₁).1 = some k₁
  ∧ (MessageBroker.publish cfg₂ s₂ tp₂ p₂ pr₂ d₂ ttl₂ md₂ none t₂ u₂).1 = some u₂
  ∧ ((MessageBroker.publish cfg₃ s₃ tp₃ p₃ pr₃ d₃ ttl₃ md₃ (some k₃) t₃ u₃).2.messages =
       s₃.messages.filter (fun x => decide (x.id ≠ k₃)) ++
         [MessageBroker.publishRow tp₃ p₃ pr₃ d₃ ttl₃ md₃ k₃ t₃]
     ∧ r₃ ∉ (MessageBroker.publish cfg₃ s₃ tp₃ p₃ pr₃ d₃ ttl₃ md₃ (some k₃) t₃ u₃).2.messages
     ∧ (MessageBroker.publishRow tp₃ p₃ pr₃ d₃ ttl₃ md₃ k₃ t₃).id = k₃
     ∧ (MessageBroker.publishRow tp₃ p₃ pr₃ d₃ ttl₃ md₃ k₃ t₃).status = "pending"
     ∧ (MessageBroker.publishRow tp₃ p₃ pr₃ d₃ ttl₃ md₃ k₃ t₃).attempts = 0
     ∧ (MessageBroker.publishRow tp₃ p₃ pr₃ d₃ ttl₃ md₃ k₃ t₃).ack_token = none) := by
  have hpy₁ : pyOrStr (some k₁) u₁ = k₁ := by simp [pyOrStr, hk₁]
  have hpy₃ : pyOrStr (some k₃) u₃ = k₃ := by simp [pyOrStr, hk₃]
  have hdd₁ := publish_isSome_dedup cfg₁ s₁ tp₁ p₁ pr₁ d₁ ttl₁ md₁ (some k₁) t₁ u₁ h1
  have hdd₂ := publish_isSome_dedup cfg₂ s₂ tp₂ p₂ pr₂ d₂ ttl₂ md₂ none t₂ u₂ h2
  have hdd₃ := publish_isSome_dedup cfg₃ s₃ tp₃ p₃ pr₃ d₃ ttl₃ md₃ (some k₃) t₃ u₃ h3
  have hdp₁ : MessageBroker.dedupCheck cfg₁ s₁.checksum_times (MessageBroker.checksumOf p₁) t₁ =
      (false, (MessageBroker.dedupCheck cfg₁ s₁.checksum_times (MessageBroker.checksumOf p₁) t₁).2) := by
    rw [← hdd₁]
  have hdp₂ : MessageBroker.dedupCheck cfg₂ s₂.checksum_times (MessageBroker.checksumOf p₂) t₂ =
      (false, (MessageBroker.dedupCheck cfg₂ s₂.checksum_times (MessageBroker.checksumOf p₂) t₂).2) := by
    rw [← hdd₂]
  have hdp₃ : MessageBroker.dedupCheck cfg₃ s₃.checksum_times (MessageBroker.checksumOf p₃) t₃ =
      (false, (MessageBroker.dedupCheck cfg₃ s₃.checksum_times (MessageBroker.checksumOf p₃) t₃).2) := by
    rw [← hdd₃]
  have he₁ := publish_not_dup_eq cfg₁ s₁ tp₁ p₁ pr₁ d₁ ttl₁ md₁ (some k₁) t₁ u₁ _ hdp₁
  have he₂ := publish_not_dup_eq cfg₂ s₂ tp₂ p₂ pr₂ d₂ ttl₂ md₂ none t₂ u₂ _ hdp₂
  have he₃ := publish_not_dup_eq cfg₃ s₃ tp₃ p₃ pr₃ d₃ ttl₃ md₃ (some k₃) t₃ u₃ _ hdp₃
  have hnoq : ¬(cfg₃.max_queue_size ≤
      s₃.messages.countP (fun r => decide (r.status = "pending" ∨ r.status = "in_flight"))) :=
    not_le.mpr hq₃
  refine ⟨?_, ?_, ?_, ?_, ?_, ?_, ?_, ?_⟩
  · rw [he₁, hpy₁]
  · rw [he₂]
    rfl
  · rw [he₃, hpy₃]
    simp only [if_neg hnoq]
  · rw [he₃, hpy₃]
    intro hmem
    rcases List.mem_append.mp hmem with hmem | hmem
    · rw [if_neg hnoq] at hmem
      have h0 := List.of_mem_filter hmem
      simp only [decide_eq_true_eq] at h0
      exact h0 hid₃
    · have : r₃ = MessageBroker.publishRow tp₃ p₃ pr₃ d₃ ttl₃ md₃ k₃ t₃ := by
        simpa using hmem
      have hcontra := congrArg Row.status this
      rw [hst₃] at hcontra
      exact absurd hcontra (by simp [MessageBroker.publishRow])
  · rfl
  · rfl
  · rfl
  · rfl

/-- Counterexample to C6 as stated: after `opsC6a` the row `"k"` is in flight
with token `"tok0"`; the second publish (which passes dedup, the payload
differing) does not leave it unchanged — it resets status to `pending` and
clears the ack token, contradicting the claim that publishing again while the
prior row is in flight leaves status, attempts and ack_token unchanged. -/
theorem C6_counterexample :
    ((runOps {} opsC6a).1.messages.map (fun x => (x.id, x.status, x.ack_token)) =
      [("k", "in_flight", some "tok0")])
  ∧ ((runOps {} opsC6b).1.messages.map (fun x => (x.id, x.status, x.ack_token)) =
      [("k", "pending", (none : Option String))])
  ∧ ((runOps {} opsC6b).1.messages.map (fun x => x.attempts) = [0]) := by decide

/-- Witness for the amended C6 on concrete states: the key names the id, and
republishing over the in-flight `stateFlight` row resets it. -/
theorem C6_idempotency_amended_witness :
    ("k" : String) ≠ ""
  ∧ (MessageBroker.publish {} BrokerState.empty "t" "p" 1 0 none [] (some "k") 0 "u1").1.isSome
  ∧ (MessageBroker.publish {} BrokerState.empty "t" "q" 1 0 none [] none 0 "u2").1.isSome
  ∧ ("m" : String) ≠ ""
  ∧ (MessageBroker.publish {} stateFlight "t" "p2" 1 0 none [] (some "m") 9 "u3").1.isSome
  ∧ stateFlight.messages.countP
      (fun r => decide (r.status = "pending" ∨ r.status = "in_flight")) <
      ({} : BrokerConfig).max_queue_size
  ∧ rowFlight ∈ stateFlight.messages
  ∧ (MessageBroker.publish {} BrokerState.empty "t" "p" 1 0 none [] (some "k") 0 "u1").1 =
      some "k"
  ∧ rowFlight ∉ (MessageBroker.publish {} stateFlight "t" "p2" 1 0 none [] (some "m") 9
      "u3").2.messages :=
  ⟨by decide, by decide, by decide, by decide, by decide, by decide, by decide,
   (C6_idempotency_amended {} BrokerState.empty "t" "p" 1 0 none [] "k" 0 "u1" (by decide)
      (by decide) {} BrokerState.empty "t" "q" 1 0 none [] 0 "u2" (by decide)
      {} stateFlight "t" "p2" 1 0 none [] "m" 9 "u3" rowFlight (by decide) (by decide)
      (by decide) (by decide) (by decide) (by decide)).1,
   (C6_idempotency_amended {} BrokerState.empty "t" "p" 1 0 none [] "k" 0 "u1" (by decide)
      (by decide) {} BrokerState.empty "t" "q" 1 0 none [] 0 "u2" (by decide)
      {} stateFlight "t" "p2" 1 0 none [] "m" 9 "u3" rowFlight (by decide) (by decide)
      (by decide) (by decide) (by decide) (by decide)).2.2.2.1⟩

/-- `publish` never touches the dead-letter table. -/
theorem publish_dlq (cfg : BrokerConfig) (s : BrokerState) (tp p : String) (pr : Int)
    (d : ℤ) (ttl : Option ℤ) (md : List (String × String)) (key : Option String)
    (now : ℤ) (u : String) :
    (MessageBroker.publish cfg s tp p pr d ttl md key now u).2.dead_letter_queue =
      s.dead_letter_queue := by
  simp only [MessageBroker.publish]
  rcases hdp : MessageBroker.dedupCheck cfg s.checksum_times (MessageBroker.checksumOf p) now
    with ⟨b, ts⟩
  cases b
  · rw [if_neg (by simp)]
  · rw [if_pos rfl]

/-- C10: `replay_dead_letter` returns nil and leaves the dead-letter row in
place when the id is unknown or the internal re-publish returns nil (e.g. a
dedup rejection); when the re-publish returns a new id, it returns that id and
deletes the dead-letter row. -/
theorem C10_replay_dead_letter
    (cfgA : BrokerConfig) (sA : BrokerState) (dlqA : String) (nowA : ℤ) (uA : String)
    (hA : ∀ x ∈ sA.dead_letter_queue, x.id ≠ dlqA)
    (cfgB : BrokerConfig) (sB : BrokerState) (dlqB : String) (nowB : ℤ) (uB : String)
    (dB : DLQRow) (hndB : (sB.dead_letter_queue.map DLQRow.id).Nodup)
    (hdB : dB ∈ sB.dead_letter_queue) (hidB : dB.id = dlqB)
    (hpB : (MessageBroker.publish cfgB sB dB.topic dB.payload 1 0 none
      (assocSet (assocSet dB.metadata "replayed_from" dlqB) "original_id" dB.original_id)
      none nowB uB).1 = none)
    (cfgC : BrokerConfig) (sC : BrokerState) (dlqC : String) (nowC : ℤ) (uC : String)
    (dC : DLQRow) (nidC : String) (hndC : (sC.dead_letter_queue.map DLQRow.id).Nodup)
    (hdC : dC ∈ sC.dead_letter_queue) (hidC : dC.id = dlqC)
    (hpC : (MessageBroker.publish cfgC sC dC.topic dC.payload 1 0 none
      (assocSet (assocSet dC.metadata "replayed_from" dlqC) "original_id" dC.original_id)
      none nowC uC).1 = some nidC) :
    MessageBroker.replay_dead_letter cfgA sA dlqA nowA uA = (none, sA)
  ∧ ((MessageBroker.replay_dead_letter cfgB sB dlqB nowB uB).1 = none
     ∧ (MessageBroker.replay_dead_letter cfgB sB dlqB nowB uB).2.dead_letter_queue =
         sB.dead_letter_queue
     ∧ dB ∈ (MessageBroker.replay_dead_letter cfgB sB dlqB nowB uB).2.dead_letter_queue)
  ∧ ((MessageBroker.replay_dead_letter cfgC sC dlqC nowC uC).1 = some nidC
     ∧ (MessageBroker.replay_dead_letter cfgC sC dlqC nowC uC).2.dead_letter_queue =
         sC.dead_letter_queue.filter (fun x => decide (x.id ≠ dlqC))) := by
  refine ⟨?_, ?_, ?_⟩
  · have hfind : sA.dead_letter_queue.find? (fun x => decide (x.id = dlqA)) = none := by
      rw [List.find?_eq_none]
      intro x hx hx'
      simp only [decide_eq_true_eq] at hx'
      exact hA x hx hx'
    unfold MessageBroker.replay_dead_letter
    rw [hfind]
  · have hfind : sB.dead_letter_queue.find? (fun x => decide (x.id = dlqB)) = some dB := by
      apply find?_key_unique DLQRow.id hndB hdB
      · exact decide_eq_true hidB
      · intro x _ hx
        have hx' := of_decide_eq_true hx
        rw [hx', hidB]
    have hres : MessageBroker.replay_dead_letter cfgB sB dlqB nowB uB =
        (none, (MessageBroker.publish cfgB sB dB.topic dB.payload 1 0 none
          (assocSet (assocSet dB.metadata "replayed_from" dlqB) "original_id" dB.original_id)
          none nowB uB).2) := by
      unfold MessageBroker.replay_dead_letter
      rw [hfind]
      simp only [hpB]
    rw [hres]
    have hd := publish_dlq cfgB sB dB.topic dB.payload 1 0 none
      (assocSet (assocSet dB.metadata "replayed_from" dlqB) "original_id" dB.original_id)
      none nowB uB
    exact ⟨rfl, hd, by rw [hd]; exact hdB⟩
  · have hfind : sC.dead_letter_queue.find? (fun x => decide (x.id = dlqC)) = some dC := by
      apply find?_key_unique DLQRow.id hndC hdC
      · exact decide_eq_true hidC
      · intro x _ hx
        have hx' := of_decide_eq_true hx
        rw [hx', hidC]
    have hres : MessageBroker.replay_dead_letter cfgC sC dlqC nowC uC =
        (some nidC,
         { (MessageBroker.publish cfgC sC dC.topic dC.payload 1 0 none
             (assocSet (assocSet dC.metadata "replayed_from" dlqC) "original_id" dC.original_id)
             none nowC uC).2 with
           dead_letter_queue :=
             (MessageBroker.publish cfgC sC dC.topic dC.payload 1 0 none
               (assocSet (assocSet dC.metadata "replayed_from" dlqC) "original_id" dC.original_id)
               none nowC uC).2.dead_letter_queue.filter (fun x => decide (x.id ≠ dlqC)) }) := by
      unfold MessageBroker.replay_dead_letter
      rw [hfind]
      simp only [hpC]
    rw [hres]
    have hd := publish_dlq cfgC sC dC.topic dC.payload 1 0 none
      (assocSet (assocSet dC.metadata "replayed_from" dlqC) "original_id" dC.original_id)
      none nowC uC
    exact ⟨rfl, by rw [hd]⟩

/-- Witness for C10: an unknown id is a no-op; a replay whose payload is still
inside the dedup window returns nil and keeps the dead-letter row; a clean
replay returns the fresh UUID and deletes the row. -/
theorem C10_replay_dead_letter_witness :
    (∀ x ∈ BrokerState.empty.dead_letter_queue, x.id ≠ "nope")
  ∧ (stateDLQdup.dead_letter_queue.map DLQRow.id).Nodup
  ∧ dlqRowFix ∈ stateDLQdup.dead_letter_queue
  ∧ (MessageBroker.publish {} stateDLQdup dlqRowFix.topic dlqRowFix.payload 1 0 none
      (assocSet (assocSet dlqRowFix.metadata "replayed_from" "d1") "original_id"
        dlqRowFix.original_id) none 5 "u1").1 = none
  ∧ (MessageBroker.publish {} stateDLQok dlqRowFix.topic dlqRowFix.payload 1 0 none
      (assocSet (assocSet dlqRowFix.metadata "replayed_from" "d1") "original_id"
        dlqRowFix.original_id) none 5 "u2").1 = some "u2"
  ∧ ((MessageBroker.replay_dead_letter {} stateDLQdup "d1" 5 "u1").1 = none
     ∧ (MessageBroker.replay_dead_letter {} stateDLQdup "d1" 5 "u1").2.dead_letter_queue =
         stateDLQdup.dead_letter_queue
     ∧ dlqRowFix ∈ (MessageBroker.replay_dead_letter {} stateDLQdup "d1" 5 "u1").2.dead_letter_queue)
  ∧ ((MessageBroker.replay_dead_letter {} stateDLQok "d1" 5 "u2").1 = some "u2"
     ∧ (MessageBroker.replay_dead_letter {} stateDLQok "d1" 5 "u2").2.dead_letter_queue =
         stateDLQok.dead_letter_queue.filter (fun x => decide (x.id ≠ "d1"))) :=
  ⟨by decide, by decide, by decide, by decide, by decide,
   (C10_replay_dead_letter {} BrokerState.empty "nope" 0 "u0" (by decide)
      {} stateDLQdup "d1" 5 "u1" dlqRowFix (by decide) (by decide) (by decide) (by decide)
      {} stateDLQok "d1" 5 "u2" dlqRowFix "u2" (by decide) (by decide) (by decide)
      (by decide)).2.1,
   (C10_replay_dead_letter {} BrokerState.empty "nope" 0 "u0" (by decide)
      {} stateDLQdup "d1" 5 "u1" dlqRowFix (by decide) (by decide) (by decide) (by decide)
      {} stateDLQok "d1" 5 "u2" dlqRowFix "u2" (by decide) (by decide) (by decide)
      (by decide)).2.2⟩

/-! ## C8: circuit breaker against the specified transition table -/

/-- Counterexample to C8 as stated: after `cbEvsPre` both machines are
half-open, but one single success — the first of this half-open episode —
closes the code's breaker (its success counter survived the failed episode),
while the specified table keeps it half-open until 3 consecutive successes. -/
theorem C8_counterexample :
    (cbRun cbEvsPre).state_ = "half_open"
  ∧ (specRun cbEvsPre).state_ = "half_open"
  ∧ (cbRun (cbEvsPre ++ [.succ])).state_ = "closed"
  ∧ (specRun (cbEvsPre ++ [.succ])).state_ = "half_open" := by decide

/-- C8 (amended): with the default parameters (threshold 5, recovery 60 s,
3 half-open successes) the code's breaker satisfies: Closed → Open exactly
when the failure count reaches 5; a state read in Open half-opens it exactly
when 60 s have passed since the last failure; in HalfOpen a success closes it
exactly when the *accumulated* success count — which is not reset when a
half-open probe fails back to Open — reaches 3, resetting the failure count;
any failure in HalfOpen re-opens it; a success in Closed decrements the
failure count toward 0; and `is_available` is false exactly when the
time-adjusted state is Open. -/
theorem C8_circuit_breaker_amended (cb : CircuitBreaker) (t lf : ℤ)
    (hth : cb.failure_threshold = 5) (hrt : cb.recovery_timeout = 60)
    (hhc : cb.half_open_max_calls = 3) :
    (cb.state_ = "closed" → ((cb.record_failure t).state_ = "open" ↔ 5 ≤ cb.failure_count + 1))
  ∧ (cb.state_ = "closed" → ¬(5 ≤ cb.failure_count + 1) →
      (cb.record_failure t).state_ = "closed" ∧
      (cb.record_failure t).failure_count = cb.failure_count + 1)
  ∧ (cb.state_ = "open" → cb.last_failure_time = some lf →
      ((cb.readState t).1 = "half_open" ↔ 60 ≤ t - lf))
  ∧ (cb.state_ = "half_open" →
      ((cb.record_success).state_ = "closed" ↔ 3 ≤ cb.success_count + 1))
  ∧ (cb.state_ = "half_open" → 3 ≤ cb.success_count + 1 →
      (cb.record_success).failure_count = 0)
  ∧ (cb.state_ = "half_open" → (cb.record_failure t).state_ = "open")
  ∧ (cb.state_ = "closed" → (cb.record_success).state_ = "closed" ∧
      (cb.record_success).failure_count = cb.failure_count - 1)
  ∧ ((cb.is_available t).1 = true ↔ (cb.readState t).1 ≠ "open") := by
  refine ⟨?_, ?_, ?_, ?_, ?_, ?_, ?_, ?_⟩
  · intro hc
    unfold CircuitBreaker.record_failure
    rw [hth]
    constructor
    · intro h
      by_contra hn
      rw [if_neg (by rw [hc]; decide), if_neg hn] at h
      rw [hc] at h
      exact absurd h (by decide)
    · intro h
      rw [if_neg (by rw [hc]; decide), if_pos h]
  · intro hc hn
    unfold CircuitBreaker.record_failure
    rw [hth, if_neg (by rw [hc]; decide), if_neg hn]
    exact ⟨hc, rfl⟩
  · intro hc hl
    have hr : cb.readState t =
        (if cb.recovery_timeout ≤ t - lf then
           ("half_open", { cb with state_ := "half_open", half_open_calls := 0 })
         else ("open", cb)) := by
      unfold CircuitBreaker.readState
      rw [if_pos hc, hl]
    rw [hr, hrt]
    by_cases h60 : (60 : ℤ) ≤ t - lf
    · rw [if_pos h60]
      exact ⟨fun _ => h60, fun _ => rfl⟩
    · rw [if_neg h60]
      constructor
      · intro h
        simp at h
      · intro h
        exact absurd h h60
  · intro hc
    unfold CircuitBreaker.record_success
    rw [if_pos hc, hhc]
    constructor
    · intro h
      by_contra hn
      rw [if_neg hn] at h
      rw [hc] at h
      exact absurd h (by decide)
    · intro h
      rw [if_pos h]
  · intro hc h3
    unfold CircuitBreaker.record_success
    rw [if_pos hc, hhc, if_pos h3]
  · intro hc
    unfold CircuitBreaker.record_failure
    rw [if_pos (by rw [hc])]
  · intro hc
    unfold CircuitBreaker.record_success
    rw [if_neg (by rw [hc]; decide), if_pos hc]
    exact ⟨hc, rfl⟩
  · unfold CircuitBreaker.is_available
    simp [decide_eq_true_eq]

/-- Witness for the amended C8 on a reachable breaker: after five failures
and a 60 s read the breaker is half-open with default parameters. -/
theorem C8_circuit_breaker_amended_witness :
    (cbRun cbEvsPre).failure_threshold = 5
  ∧ (cbRun cbEvsPre).recovery_timeout = 60
  ∧ (cbRun cbEvsPre).half_open_max_calls = 3
  ∧ ((cbRun cbEvsPre).state_ = "half_open" →
      (((cbRun cbEvsPre).record_success).state_ = "closed" ↔
        3 ≤ (cbRun cbEvsPre).success_count + 1)) :=
  ⟨by decide, by decide, by decide,
   (C8_circuit_breaker_amended (cbRun cbEvsPre) 121 61 (by decide) (by decide)
     (by decide)).2.2.2.1⟩

/-- C4 (amended): `selectRows` returns at most `batch_size` rows, each a
visible pending row of the topic; the result is ordered by priority DESC then
`scheduled_at` ASC, any higher-priority visible row appearing before any
returned lower-priority one — but rows tied on (priority, scheduled_at) come
in table (rowid) order, not by `created_at` then id; `consume` returns exactly
these rows marked in-flight when the breaker allows and the in-flight cap is
not reached. -/
theorem C4_consume_order (msgs : List Row) (tp : String) (batch : Nat) (now : ℤ)
    (a b : Row) (ha : a ∈ msgs) (hva : MessageBroker.visibleFor tp now a = true)
    (hb : b ∈ MessageBroker.selectRows msgs tp batch now)
    (hp : b.priority < a.priority)
    (cfg : BrokerConfig) (s : BrokerState) (cb : CircuitBreaker) (toks : Nat → String)
    (h1 : (cb.is_available now).1 = true)
    (h2 : MessageBroker.inFlightCount s.messages < cfg.max_in_flight) :
    (MessageBroker.selectRows msgs tp batch now).length ≤ batch
  ∧ (∀ r ∈ MessageBroker.selectRows msgs tp batch now,
      r ∈ msgs ∧ MessageBroker.visibleFor tp now r = true)
  ∧ (MessageBroker.selectRows msgs tp batch now).Pairwise MessageBroker.consumeLe
  ∧ (∃ i j : Nat, i < j ∧ (MessageBroker.selectRows msgs tp batch now)[i]? = some a
      ∧ (MessageBroker.selectRows msgs tp batch now)[j]? = some b)
  ∧ (MessageBroker.consume cfg s cb tp batch now toks).1 =
      (MessageBroker.selectRows s.messages tp batch now).enum.map
        (fun p =>
          { p.2 with
            status := "in_flight", ack_token := some (toks p.1), updated_at := now }) := by
  have hlen : (MessageBroker.selectRows msgs tp batch now).length ≤ batch := by
    unfold MessageBroker.selectRows
    rw [List.length_take]
    exact min_le_left _ _
  have hmem : ∀ r ∈ MessageBroker.selectRows msgs tp batch now,
      r ∈ msgs ∧ MessageBroker.visibleFor tp now r = true := by
    intro r hr
    unfold MessageBroker.selectRows at hr
    have hr' := List.take_subset _ _ hr
    rw [List.mem_insertionSort] at hr'
    exact ⟨List.mem_filter.mp hr' |>.1, List.mem_filter.mp hr' |>.2⟩
  have hsorted : (MessageBroker.selectRows msgs tp batch now).Pairwise
      MessageBroker.consumeLe := by
    unfold MessageBroker.selectRows
    exact List.Pairwise.sublist (List.take_sublist _ _)
      (List.sorted_insertionSort MessageBroker.consumeLe _)
  refine ⟨hlen, hmem, hsorted, ?_, ?_⟩
  · -- the priority clause
    have hL : (msgs.filter (MessageBroker.visibleFor tp now)).insertionSort
        MessageBroker.consumeLe |>.Pairwise MessageBroker.consumeLe :=
      List.sorted_insertionSort MessageBroker.consumeLe _
    have haL : a ∈ (msgs.filter (MessageBroker.visibleFor tp now)).insertionSort
        MessageBroker.consumeLe := by
      rw [List.mem_insertionSort]
      exact List.mem_filter.mpr ⟨ha, hva⟩
    rcases List.mem_iff_getElem.mp haL with ⟨k, hk, hka⟩
    unfold MessageBroker.selectRows at hb ⊢
    rcases List.mem_iff_getElem.mp hb with ⟨j, hj, hjb⟩
    have hjL : j < ((msgs.filter (MessageBroker.visibleFor tp now)).insertionSort
        MessageBroker.consumeLe).length := by
      have := hj
      rw [List.length_take] at this
      omega
    have hjb' : ((msgs.filter (MessageBroker.visibleFor tp now)).insertionSort
        MessageBroker.consumeLe)[j] = b := by
      rw [← List.getElem_take _ (i := j) (j := batch) (h := hj)]
      exact hjb
    have hkj : k < j := by
      by_contra hkj
      push_neg at hkj
      rcases Nat.lt_or_ge j k with hlt | hge
      · have hrel := List.pairwise_iff_getElem.mp hL j k hjL hk hlt
        rw [hjb', hka] at hrel
        unfold MessageBroker.consumeLe at hrel
        rcases hrel with h | ⟨h, _⟩
        · exact absurd hp (lt_asymm h)
        · rw [h] at hp
          exact absurd hp (lt_irrefl _)
      · have heq : j = k := le_antisymm hkj hge
        subst heq
        have hab : a = b := by
          rw [← hka]
          exact hjb'
        rw [hab] at hp
        exact absurd hp (lt_irrefl _)
    have hkt : k < (List.take batch ((msgs.filter (MessageBroker.visibleFor tp now)).insertionSort
        MessageBroker.consumeLe)).length := by
      rw [List.length_take] at hj ⊢
      omega
    refine ⟨k, j, hkj, ?_, ?_⟩
    · rw [List.getElem?_eq_getElem hkt, List.getElem_take]
      rw [hka]
    · rw [List.getElem?_eq_getElem hj]
      rw [hjb]
  · -- the consume link
    have hno : ¬((cb.is_available now).1 = false) := by
      rw [h1]
      exact Bool.noConfusion
    unfold MessageBroker.consume
    rw [if_neg hno, if_neg (not_le.mpr h2)]

/-- Witness for C4 on `statePrio`: the critical row published second is still
selected ahead of the normal one. -/
theorem C4_consume_order_witness :
    rowHi ∈ statePrio.messages
  ∧ MessageBroker.visibleFor "t" 0 rowHi = true
  ∧ rowLo ∈ MessageBroker.selectRows statePrio.messages "t" 10 0
  ∧ rowLo.priority < rowHi.priority
  ∧ (CircuitBreaker.init.is_available 0).1 = true
  ∧ MessageBroker.inFlightCount statePrio.messages < ({} : BrokerConfig).max_in_flight
  ∧ (MessageBroker.selectRows statePrio.messages "t" 10 0).length ≤ 10
  ∧ (∃ i j : Nat, i < j ∧ (MessageBroker.selectRows statePrio.messages "t" 10 0)[i]? = some rowHi
      ∧ (MessageBroker.selectRows statePrio.messages "t" 10 0)[j]? = some rowLo) :=
  ⟨by decide, by decide, by decide, by decide, by decide, by decide,
   (C4_consume_order statePrio.messages "t" 10 0 rowHi rowLo (by decide) (by decide)
      (by decide) (by decide) {} statePrio CircuitBreaker.init (fun i => "tok" ++ toString i)
      (by decide) (by decide)).1,
   (C4_consume_order statePrio.messages "t" 10 0 rowHi rowLo (by decide) (by decide)
      (by decide) (by decide) {} statePrio CircuitBreaker.init (fun i => "tok" ++ toString i)
      (by decide) (by decide)).2.2.2.1⟩

/-- Counterexample to C4 as stated: the two rows are tied on priority,
`scheduled_at` and `created_at`, and the claimed final tie-break by id would
return `"a"` before `"z"`; the code's SELECT (index scan in rowid order)
returns `"z"` first. -/
theorem C4_counterexample :
    (MessageBroker.selectRows (runOps {} opsC4).1.messages "t" 10 0).map (fun r => r.id) =
      ["z", "a"]
  ∧ (runOps {} opsC4).1.messages.map (fun r => (r.priority, r.scheduled_at, r.created_at)) =
      [(1, 0, 0), (1, 0, 0)]
  ∧ ('a' < 'z') := by decide

/-! ## C3: the in-flight bound -/

/-- A map that keeps row ids keeps the id column. -/
theorem map_ids_eq {f : Row → Row} (hf : ∀ x, (f x).id = x.id) (l : List Row) :
    (l.map f).map Row.id = l.map Row.id := by
  rw [List.map_map]
  exact List.map_congr_left (fun x _ => hf x)

/-- `markRow` keeps the id column. -/
theorem markRow_ids (m : List Row) (id tok : String) (now : ℤ) :
    (MessageBroker.markRow m id tok now).map Row.id = m.map Row.id := by
  unfold MessageBroker.markRow
  apply map_ids_eq
  intro x
  by_cases h : x.id = id <;> simp [h]

/-- Counting a disjunction-covered predicate. -/
theorem countP_le_add_of_imp {p q s : Row → Bool} (l : List Row)
    (h : ∀ x ∈ l, p x = true → q x = true ∨ s x = true) :
    l.countP p ≤ l.countP q + l.countP s := by
  induction l with
  | nil => simp
  | cons a t ih =>
    have ht := ih (fun x hx => h x (List.mem_cons_of_mem a hx))
    rw [List.countP_cons, List.countP_cons, List.countP_cons]
    by_cases hp : p a = true <;> by_cases hq : q a = true <;> by_cases hs : s a = true <;>
      simp [hp, hq, hs] <;> try omega
    rcases h a (List.mem_cons_self a t) hp with h' | h'
    · exact absurd h' hq
    · exact absurd h' hs

/-- With distinct ids, at most one row carries a given id. -/
theorem countP_id_le_one (l : List Row) (id : String)
    (h : (l.map Row.id).Nodup) :
    l.countP (fun r => decide (r.id = id)) ≤ 1 := by
  induction l with
  | nil => simp
  | cons a t ih =>
    rw [List.map_cons, List.nodup_cons] at h
    by_cases ha : a.id = id
    · have hz : t.countP (fun r => decide (r.id = id)) = 0 := by
        rw [List.countP_eq_zero]
        intro x hx hxid
        simp only [decide_eq_true_eq] at hxid
        apply h.1
        have hax : a.id = x.id := by rw [ha, hxid]
        rw [hax]
        exact List.mem_map_of_mem Row.id hx
      rw [List.countP_cons, hz]
      simp [ha]
    · have := ih h.2
      rw [List.countP_cons]
      simp [ha]
      exact this

/-- One `markRow` raises the in-flight count by at most one. -/
theorem markRow_count (m : List Row) (id tok : String) (now : ℤ)
    (h : (m.map Row.id).Nodup) :
    MessageBroker.inFlightCount (MessageBroker.markRow m id tok now) ≤
      MessageBroker.inFlightCount m + 1 := by
  unfold MessageBroker.inFlightCount MessageBroker.markRow
  rw [List.countP_map]
  have := countP_le_add_of_imp (p := fun x =>
      decide ((if x.id = id then
        { x with status := "in_flight", ack_token := some tok, updated_at := now }
      else x).status = "in_flight"))
    (q := fun r => decide (r.status = "in_flight"))
    (s := fun r => decide (r.id = id)) m ?_
  · calc m.countP _ ≤ m.countP (fun r => decide (r.status = "in_flight")) +
        m.countP (fun r => decide (r.id = id)) := this
    _ ≤ m.countP (fun r => decide (r.status = "in_flight")) + 1 := by
        have := countP_id_le_one m id h
        omega
  · intro x _ hpx
    by_cases hx : x.id = id
    · exact Or.inr (decide_eq_true hx)
    · simp only [if_neg hx] at hpx
      exact Or.inl hpx

/-- Folding `markRow` over the picks raises the count by at most their
number. -/
theorem marks_count (now : ℤ) : ∀ (picks : List (String × String)) (m : List Row),
    (m.map Row.id).Nodup →
    MessageBroker.inFlightCount
      (picks.foldl (fun m pick => MessageBroker.markRow m pick.1 pick.2 now) m) ≤
      MessageBroker.inFlightCount m + picks.length := by
  intro picks
  induction picks with
  | nil => intro m _; simp
  | cons pk t ih =>
    intro m hm
    have hids := markRow_ids m pk.1 pk.2 now
    have hnd' : ((MessageBroker.markRow m pk.1 pk.2 now).map Row.id).Nodup := by
      rw [hids]; exact hm
    have h1 := markRow_count m pk.1 pk.2 now hm
    have h2 := ih (MessageBroker.markRow m pk.1 pk.2 now) hnd'
    simp only [List.foldl_cons, List.length_cons]
    omega

/-- Filtering keeps the id column duplicate-free. -/
theorem nodup_ids_filter (p : Row → Bool) (l : List Row) (h : (l.map Row.id).Nodup) :
    ((l.filter p).map Row.id).Nodup :=
  List.Nodup.sublist (List.Sublist.map Row.id (List.filter_sublist l)) h

/-- Folding `markRow` keeps the id column. -/
theorem marks_ids (now : ℤ) : ∀ (picks : List (String × String)) (m : List Row),
    ((picks.foldl (fun m pick => MessageBroker.markRow m pick.1 pick.2 now) m).map Row.id) =
      m.map Row.id := by
  intro picks
  induction picks with
  | nil => intro m; rfl
  | cons pk t ih =>
    intro m
    simp only [List.foldl_cons]
    rw [ih (MessageBroker.markRow m pk.1 pk.2 now), markRow_ids]

/-- `publish` never raises the in-flight count. -/
theorem publish_count (cfg : BrokerConfig) (s : BrokerState) (tp p : String) (pr : Int)
    (d : ℤ) (ttl : Option ℤ) (md : List (String × String)) (key : Option String)
    (now : ℤ) (u : String) :
    MessageBroker.inFlightCount
      (MessageBroker.publish cfg s tp p pr d ttl md key now u).2.messages ≤
      MessageBroker.inFlightCount s.messages := by
  simp only [MessageBroker.publish]
  rcases hdp : MessageBroker.dedupCheck cfg s.checksum_times (MessageBroker.checksumOf p) now
    with ⟨b, ts⟩
  cases b
  · rw [if_neg (by simp)]
    unfold MessageBroker.inFlightCount
    rw [List.countP_append]
    have hz : List.countP (fun r => decide (r.status = "in_flight"))
        [MessageBroker.publishRow tp p pr d ttl md (pyOrStr key u) now] = 0 := by
      simp [MessageBroker.publishRow]
    rw [hz]
    have hbase : List.countP (fun r => decide (r.status = "in_flight"))
        (if cfg.max_queue_size ≤
            s.messages.countP (fun r => decide (r.status = "pending" ∨ r.status = "in_flight"))
         then MessageBroker.evict_old_messages s.messages else s.messages) ≤
        List.countP (fun r => decide (r.status = "in_flight")) s.messages := by
      split
      · exact List.Sublist.countP_le _ (List.filter_sublist _)
      · exact le_refl _
    have hf := List.Sublist.countP_le (fun r => decide (r.status = "in_flight"))
      (List.filter_sublist (p := fun r => decide (r.id ≠ pyOrStr key u))
        (if cfg.max_queue_size ≤
            s.messages.countP (fun r => decide (r.status = "pending" ∨ r.status = "in_flight"))
         then MessageBroker.evict_old_messages s.messages else s.messages))
    omega
  · rw [if_pos rfl]

/-- `publish` keeps the id column duplicate-free. -/
theorem publish_nodup (cfg : BrokerConfig) (s : BrokerState) (tp p : String) (pr : Int)
    (d : ℤ) (ttl : Option ℤ) (md : List (String × String)) (key : Option String)
    (now : ℤ) (u : String) (h : (s.messages.map Row.id).Nodup) :
    ((MessageBroker.publish cfg s tp p pr d ttl md key now u).2.messages.map Row.id).Nodup := by
  simp only [MessageBroker.publish]
  rcases hdp : MessageBroker.dedupCheck cfg s.checksum_times (MessageBroker.checksumOf p) now
    with ⟨b, ts⟩
  cases b
  · rw [if_neg (by simp)]
    rw [List.map_append, List.nodup_append]
    have hbase : ((if cfg.max_queue_size ≤
          s.messages.countP (fun r => decide (r.status = "pending" ∨ r.status = "in_flight"))
        then MessageBroker.evict_old_messages s.messages else s.messages).map Row.id).Nodup := by
      split
      · exact nodup_ids_filter _ _ h
      · exact h
    refine ⟨nodup_ids_filter _ _ hbase, by simp, ?_⟩
    intro x hx
    rcases List.mem_map.mp hx with ⟨y, hy, hyx⟩
    have hid := List.of_mem_filter hy
    simp only [decide_eq_true_eq] at hid
    simp only [List.map_cons, List.map_nil, List.mem_cons, List.not_mem_nil]
    intro hc
    rcases hc with hc | hc
    · rw [← hyx] at hc
      exact hid (by rw [hc]; rfl)
    · exact hc
  · rw [if_pos rfl]
    exact h

/-- `acknowledge` leaves the messages unchanged or deletes by id. -/
theorem ack_messages_cases (s : BrokerState) (cb : CircuitBreaker)
    (mid tok resp : String) (now : ℤ) :
    (MessageBroker.acknowledge s cb mid tok resp now).2.1.messages = s.messages ∨
    (MessageBroker.acknowledge s cb mid tok resp now).2.1.messages =
      s.messages.filter (fun x => decide (x.id ≠ mid)) := by
  unfold MessageBroker.acknowledge
  cases h : s.messages.find? (fun r => decide (r.id = mid ∧ r.status = "in_flight")) with
  | none => exact Or.inl rfl
  | some row =>
    by_cases ht : row.ack_token = some tok
    · simp only [ht, if_pos]
      exact Or.inr trivial
    · simp only [if_neg ht]
      exact Or.inl trivial

/-- `negative_acknowledge` leaves the messages unchanged, deletes by id, or
rewrites rows of that id to pending. -/
theorem nack_messages_cases (s : BrokerState) (cb : CircuitBreaker)
    (mid tok err : String) (retry : Bool) (now jit : ℤ) :
    (MessageBroker.negative_acknowledge s cb mid tok err retry now jit).2.1.messages =
      s.messages ∨
    (∃ key : String,
      (MessageBroker.negative_acknowledge s cb mid tok err retry now jit).2.1.messages =
        s.messages.filter (fun x => decide (x.id ≠ key))) ∨
    (∃ f : Row → Row, (∀ x, (f x).id = x.id ∧ ((f x).status = "in_flight" → x.status = "in_flight")) ∧
      (MessageBroker.negative_acknowledge s cb mid tok err retry now jit).2.1.messages =
        s.messages.map f) := by
  unfold MessageBroker.negative_acknowledge
  cases h : s.messages.find? (fun r => decide (r.id = mid ∧ r.status = "in_flight")) with
  | none => exact Or.inl rfl
  | some row =>
    by_cases ht : row.ack_token = some tok
    · simp only [ht, if_pos]
      by_cases hc : retry = false ∨ row.max_attempts ≤ row.attempts + 1
      · rw [if_pos hc]
        exact Or.inr (Or.inl ⟨row.id, rfl⟩)
      · rw [if_neg hc]
        refine Or.inr (Or.inr ⟨_, ?_, rfl⟩)
        intro x
        by_cases hx : x.id = mid
        · constructor
          · rw [if_pos hx]
          · rw [if_pos hx]
            intro hst
            simp at hst
        · rw [if_neg hx]
          exact ⟨rfl, fun hst => hst⟩
    · simp only [if_neg ht]
      exact Or.inl trivial

/-- `acknowledge` never raises the in-flight count and keeps ids distinct. -/
theorem ack_count_nodup (s : BrokerState) (cb : CircuitBreaker)
    (mid tok resp : String) (now : ℤ) (h : (s.messages.map Row.id).Nodup) :
    MessageBroker.inFlightCount (MessageBroker.acknowledge s cb mid tok resp now).2.1.messages ≤
      MessageBroker.inFlightCount s.messages
  ∧ ((MessageBroker.acknowledge s cb mid tok resp now).2.1.messages.map Row.id).Nodup := by
  rcases ack_messages_cases s cb mid tok resp now with hc | hc <;> rw [hc]
  · exact ⟨le_refl _, h⟩
  · exact ⟨List.Sublist.countP_le _ (List.filter_sublist _), nodup_ids_filter _ _ h⟩

/-- `negative_acknowledge` never raises the in-flight count and keeps ids
distinct. -/
theorem nack_count_nodup (s : BrokerState) (cb : CircuitBreaker)
    (mid tok err : String) (retry : Bool) (now jit : ℤ) (h : (s.messages.map Row.id).Nodup) :
    MessageBroker.inFlightCount
      (MessageBroker.negative_acknowledge s cb mid tok err retry now jit).2.1.messages ≤
      MessageBroker.inFlightCount s.messages
  ∧ (((MessageBroker.negative_acknowledge s cb mid tok err retry now jit).2.1.messages.map
      Row.id).Nodup) := by
  rcases nack_messages_cases s cb mid tok err retry now jit with hc | ⟨key, hc⟩ | ⟨f, hf, hc⟩ <;>
    rw [hc]
  · exact ⟨le_refl _, h⟩
  · exact ⟨List.Sublist.countP_le _ (List.filter_sublist _), nodup_ids_filter _ _ h⟩
  · constructor
    · unfold MessageBroker.inFlightCount
      rw [List.countP_map]
      apply List.countP_mono_left
      intro x _ hx
      simp only [Function.comp, decide_eq_true_eq] at hx ⊢
      exact (hf x).2 hx
    · rw [map_ids_eq (fun x => (hf x).1)]
      exact h

/-- `consume` keeps ids distinct. -/
theorem consume_nodup (cfg : BrokerConfig) (s : BrokerState) (cb : CircuitBreaker)
    (tp : String) (batch : Nat) (now : ℤ) (toks : Nat → String)
    (h : (s.messages.map Row.id).Nodup) :
    ((MessageBroker.consume cfg s cb tp batch now toks).2.1.messages.map Row.id).Nodup := by
  unfold MessageBroker.consume
  by_cases h1 : (cb.is_available now).1 = false
  · rw [if_pos h1]
    exact h
  · rw [if_neg h1]
    by_cases h2 : cfg.max_in_flight ≤ MessageBroker.inFlightCount s.messages
    · rw [if_pos h2]
      exact h
    · rw [if_neg h2]
      rw [marks_ids]
      exact h

/-- `consume` keeps the in-flight count at or below
`max(previous, max_in_flight - 1 + batch)`. -/
theorem consume_count (cfg : BrokerConfig) (s : BrokerState) (cb : CircuitBreaker)
    (tp : String) (batch : Nat) (now : ℤ) (toks : Nat → String)
    (h : (s.messages.map Row.id).Nodup) :
    MessageBroker.inFlightCount (MessageBroker.consume cfg s cb tp batch now toks).2.1.messages ≤
      max (MessageBroker.inFlightCount s.messages) (cfg.max_in_flight - 1 + batch) := by
  unfold MessageBroker.consume
  by_cases h1 : (cb.is_available now).1 = false
  · rw [if_pos h1]
    exact le_max_left _ _
  · rw [if_neg h1]
    by_cases h2 : cfg.max_in_flight ≤ MessageBroker.inFlightCount s.messages
    · rw [if_pos h2]
      exact le_max_left _ _
    · rw [if_neg h2]
      dsimp only
      have hm := marks_count now
        ((MessageBroker.selectRows s.messages tp batch now).enum.map
          (fun p => (p.2.id, toks p.1))) s.messages h
      have hlen : ((MessageBroker.selectRows s.messages tp batch now).enum.map
          (fun p => (p.2.id, toks p.1))).length ≤ batch := by
        rw [List.length_map, List.enum_length]
        unfold MessageBroker.selectRows
        rw [List.length_take]
        exact min_le_left _ _
      have hlt : MessageBroker.inFlightCount s.messages < cfg.max_in_flight := not_le.mp h2
      have : MessageBroker.inFlightCount s.messages + batch ≤
          max (MessageBroker.inFlightCount s.messages) (cfg.max_in_flight - 1 + batch) := by
        have := le_max_right (MessageBroker.inFlightCount s.messages)
          (cfg.max_in_flight - 1 + batch)
        omega
      omega

/-- Every single operation preserves the C3 invariant. -/
theorem stepOp_inv (cfg : BrokerConfig) (B : Nat) (sc : BrokerState × CircuitBreaker)
    (op : BrokerOp) (hb : op.batch ≤ B) (h : InvC3 cfg B sc.1) :
    InvC3 cfg B (stepOp cfg sc op).1 := by
  rcases h with ⟨hnd, hcnt⟩
  cases op with
  | pub tp p pr d ttl md k now u =>
    exact ⟨publish_nodup cfg sc.1 tp p pr d ttl md k now u hnd,
           le_trans (publish_count cfg sc.1 tp p pr d ttl md k now u) hcnt⟩
  | con tp b now toks =>
    refine ⟨consume_nodup cfg sc.1 sc.2 tp b now toks hnd, ?_⟩
    have hc := consume_count cfg sc.1 sc.2 tp b now toks hnd
    have hbB : b ≤ B := hb
    have h1 : cfg.max_in_flight - 1 + b ≤ cfg.max_in_flight - 1 + B := by omega
    exact le_trans hc (max_le hcnt h1)
  | ack mid tok resp now =>
    have := ack_count_nodup sc.1 sc.2 mid tok resp now hnd
    exact ⟨this.2, le_trans this.1 hcnt⟩
  | nack mid tok err retry now jit =>
    have := nack_count_nodup sc.1 sc.2 mid tok err retry now jit hnd
    exact ⟨this.2, le_trans this.1 hcnt⟩

/-- Running any operation sequence preserves the C3 invariant. -/
theorem runOpsFrom_inv (cfg : BrokerConfig) (B : Nat) :
    ∀ (ops : List BrokerOp) (sc : BrokerState × CircuitBreaker),
    (∀ op ∈ ops, op.batch ≤ B) → InvC3 cfg B sc.1 →
    InvC3 cfg B (runOpsFrom cfg sc ops).1 := by
  intro ops
  induction ops with
  | nil => intro sc _ h; exact h
  | cons op t ih =>
    intro sc hops h
    simp only [runOpsFrom, List.foldl_cons]
    have hstep := stepOp_inv cfg B sc op (hops op (List.mem_cons_self _ _)) h
    exact ih (stepOp cfg sc op) (fun o ho => hops o (List.mem_cons_of_mem _ ho)) hstep

/-- C3 (amended): for any operation sequence in one process whose consume
batch sizes are bounded by `B ≥ 1`, the in-flight count never exceeds
`max_in_flight - 1 + B` (so a single consume can overshoot the cap by up to
`batch_size - 1`); and `consume` returns the empty list whenever the current
in-flight count is at least `max_in_flight`. -/
theorem C3_in_flight_amended (cfg : BrokerConfig) (B : Nat) (ops : List BrokerOp)
    (s : BrokerState) (cb : CircuitBreaker) (tp : String) (batch : Nat) (now : ℤ)
    (toks : Nat → String) (_hB : 1 ≤ B) (hops : ∀ op ∈ ops, op.batch ≤ B)
    (hgate : cfg.max_in_flight ≤ MessageBroker.inFlightCount s.messages) :
    MessageBroker.inFlightCount (runOps cfg ops).1.messages ≤ cfg.max_in_flight - 1 + B
  ∧ (MessageBroker.consume cfg s cb tp batch now toks).1 = [] := by
  constructor
  · have hinit : InvC3 cfg B (BrokerState.empty, CircuitBreaker.init).1 := by
      constructor
      · exact List.nodup_nil
      · exact Nat.zero_le _
    exact (runOpsFrom_inv cfg B ops (BrokerState.empty, CircuitBreaker.init) hops hinit).2
  · unfold MessageBroker.consume
    by_cases h1 : (cb.is_available now).1 = false
    · rw [if_pos h1]
    · rw [if_neg h1, if_pos hgate]

/-- Counterexample to C3 as stated: with `max_in_flight = 1` a single consume
(entered with 0 in flight, below the cap) marks a whole batch of 2 in flight,
so the in-flight count exceeds `max_in_flight`. -/
theorem C3_counterexample :
    ({ max_in_flight := 1 } : BrokerConfig).max_in_flight = 1
  ∧ MessageBroker.inFlightCount
      (runOps { max_in_flight := 1 } opsC3).1.messages = 2 := by decide

/-- Witness for the amended C3: the bound holds on the concrete run, and with
`max_in_flight = 0` a consume on the empty state returns nothing. -/
theorem C3_in_flight_amended_witness :
    (1 : Nat) ≤ 2
  ∧ (∀ op ∈ opsC3, op.batch ≤ 2)
  ∧ ({ max_in_flight := 0 } : BrokerConfig).max_in_flight ≤
      MessageBroker.inFlightCount BrokerState.empty.messages
  ∧ MessageBroker.inFlightCount
      (runOps { max_in_flight := 0 } opsC3).1.messages ≤
      ({ max_in_flight := 0 } : BrokerConfig).max_in_flight - 1 + 2
  ∧ (MessageBroker.consume { max_in_flight := 0 } BrokerState.empty CircuitBreaker.init
      "t" 2 0 (fun i => "tok" ++ toString i)).1 = [] :=
  ⟨by decide, by decide, by decide,
   (C3_in_flight_amended { max_in_flight := 0 } 2 opsC3 BrokerState.empty CircuitBreaker.init
      "t" 2 0 (fun i => "tok" ++ toString i) (by decide) (by decide) (by decide)).1,
   (C3_in_flight_amended { max_in_flight := 0 } 2 opsC3 BrokerState.empty CircuitBreaker.init
      "t" 2 0 (fun i => "tok" ++ toString i) (by decide) (by decide) (by decide)).2⟩
